import Mathlib

/-!
# markdown-it YAML front matter plugin: table token builder and block rule

A shallow embedding of `src/frontmatter.js`.

* JavaScript values produced by the YAML decoder are the inductive type `JsVal`.
* The host parse state (markdown-it `StateBlock`) is the record `State`; every
  function of the plugin that mutates it takes the state and gives the state
  after the call.
* A JavaScript exception is the `Except.error` result; a function that can
  throw after it has mutated the state returns the state at the throw with the
  exception.

Modelling conventions for the JavaScript runtime (they are not code of this
repository):

* a mapping is an ordinary object: the list of its own enumerable properties
  in `Object.keys` order, with `Object.prototype` as its prototype. Reading a
  property it does not own reads the member of `Object.prototype` of that name
  (`constructor`, `toString`, ...), and `String(mapping)` throws a `TypeError`
  when the mapping owns a property named `toString` (a decoded value is never
  callable, and `Object.prototype.valueOf` returns the mapping itself);
* a number is represented by the text `Number::toString` gives it, the only
  observation besides truthiness that the plugin makes of a number;
* strings are sequences of UTF-16 code units; a `Char` stands for one unit.
-/

namespace YamlFrontmatter

/-! ## JavaScript values -/

/-- Values a YAML decoder hands back (`null`, booleans, numbers, strings, lists,
mappings), plus the two values a property read can add to them: `undefined`
and a built-in function inherited from `Object.prototype`, named by `name`. -/
inductive JsVal where
  | undefined
  | null
  | bool (b : Bool)
  | num (text : String)
  | str (s : String)
  | arr (items : List JsVal)
  | obj (props : List (String × JsVal))
  | native (name : String)
  deriving Repr, Inhabited

/-- The exception raised by a failing runtime operation or by the decoder. -/
inductive JsError where
  | typeError
  | decodeError
  deriving Repr, DecidableEq, Inhabited

/-- JavaScript `typeof`. -/
def jsTypeof : JsVal → String
  | .undefined => "undefined"
  | .null => "object"
  | .bool _ => "boolean"
  | .num _ => "number"
  | .str _ => "string"
  | .arr _ => "object"
  | .obj _ => "object"
  | .native _ => "function"

/-- Strict equality with `null` (`item === null`). -/
def isNull : JsVal → Bool
  | .null => true
  | _ => false

/-- Source: `const isArray = (value) => Array.isArray(value)`. -/
def isArray : JsVal → Bool
  | .arr _ => true
  | _ => false

/-- JavaScript truthiness (`!value` is its negation). -/
def truthy : JsVal → Bool
  | .undefined => false
  | .null => false
  | .bool b => b
  | .num text => !(text == "0" || text == "NaN")
  | .str s => !(s == "")
  | .arr _ => true
  | .obj _ => true
  | .native _ => true

/-- The element separator of `Array.prototype.join`: `null` and `undefined`
elements contribute the empty text. -/
def joinTexts : List String → String
  | [] => ""
  | [t] => t
  | t :: rest => t ++ "," ++ joinTexts rest

/-- Whether a mapping owns a property named `key`. -/
def hasOwn (props : List (String × JsVal)) (key : String) : Bool :=
  (props.lookup key).isSome

/-- JavaScript `String(value)`. For a mapping the conversion calls the
`toString` it finds: `Object.prototype.toString`, which gives
`[object Object]`, unless the mapping owns a property of that name; an own
`toString` is a decoded value and not callable, `valueOf` (own and not
callable, or inherited and returning the mapping) gives no primitive either,
and the conversion throws a `TypeError`. A built-in function converts to its
source text. A list converts by `join`, which the plugin never triggers. -/
def jsString : JsVal → Except JsError String
  | .undefined => .ok "undefined"
  | .null => .ok "null"
  | .bool true => .ok "true"
  | .bool false => .ok "false"
  | .num text => .ok text
  | .str s => .ok s
  | .native name => .ok ("function " ++ name ++ "() \x7b [native code] \x7d")
  | .obj props => if hasOwn props "toString" then .error .typeError else .ok "[object Object]"
  | .arr items =>
    let texts : Except JsError (List String) :=
      items.attach.mapM (fun (x : { y // y ∈ items }) =>
        match x with
        | ⟨.undefined, _⟩ => Except.ok ""
        | ⟨.null, _⟩ => Except.ok ""
        | ⟨other, _⟩ => jsString other)
    texts.map joinTexts
termination_by v => sizeOf v
decreasing_by
  simp_wf
  have := List.sizeOf_lt_of_mem ‹_ ∈ _›
  omega

/-- The own enumerable properties of a value, as `Object.keys` and property
reads see them: the properties of a mapping, the indexed elements of a list,
the indexed code units of a string, none for the other values. -/
def ownEntries : JsVal → List (String × JsVal)
  | .obj props => props
  | .arr items => (List.range items.length).zipWith (fun i item => (toString i, item)) items
  | .str s => (List.range s.length).zipWith (fun i c => (toString i, JsVal.str (String.singleton c))) s.data
  | _ => []

/-- The key list `Object.keys(value)` of a value that is neither `null` nor
`undefined`. -/
def ownKeys (v : JsVal) : List String :=
  (ownEntries v).map Prod.fst

/-- JavaScript `Object.keys(value)`: a `TypeError` for `null` and `undefined`. -/
def objectKeys : JsVal → Except JsError (List String)
  | .undefined => .error .typeError
  | .null => .error .typeError
  | v => .ok (ownKeys v)

/-- The member of `Object.prototype` named `key`, `undefined` when there is
none: the constructor `Object`, the built-in methods, and the accessor
`__proto__`, which on an ordinary object gives `Object.prototype` itself (an
object without enumerable properties). -/
def objectPrototypeGet (key : String) : JsVal :=
  if key = "constructor" then .native "Object"
  else if key ∈ ["toString", "valueOf", "hasOwnProperty", "isPrototypeOf",
      "propertyIsEnumerable", "toLocaleString", "__defineGetter__", "__defineSetter__",
      "__lookupGetter__", "__lookupSetter__"] then .native key
  else if key = "__proto__" then .obj []
  else .undefined

/-- Property read `value[key]` on a value that is neither `null` nor
`undefined`: the own property; for a mapping that does not own `key`, the
member of `Object.prototype` (the prototype chain of an ordinary object). The
plugin reads a list, a string or another scalar only at keys `Object.keys`
returned for that very value, which are own keys; their inherited members are
not modelled and read as `undefined`. -/
def getProp (v : JsVal) (key : String) : JsVal :=
  match (ownEntries v).lookup key with
  | some w => w
  | none =>
    match v with
    | .obj _ => objectPrototypeGet key
    | _ => .undefined

/-! ## Tokens and the host parse state -/

/-- A markdown-it `Token`, with the fields the plugin or `state.push` write.
The fields `info`, `meta` and `hidden` keep their constructor defaults and are
left out. `children` is `null` (`none`) or an array of inline tokens, which the
plugin only ever sets to the empty array. -/
structure Token where
  type : String
  tag : String
  nesting : Int
  level : Int
  block : Bool
  map : Option (Nat × Nat)
  content : JsVal
  children : Option (List Unit)
  markup : String
  attrs : Option (List (String × Option String))
  deriving Repr, Inhabited

/-- One line of the host's line index: `bMarks[line]`, `eMarks[line]`,
`tShift[line]` and `bsCount[line]`; the host keeps these arrays at equal
length. -/
structure LineMarks where
  bMark : Nat
  eMark : Nat
  tShift : Nat
  bsCount : Nat
  deriving Repr, DecidableEq, Inhabited

/-- The markdown-it block parse state. -/
structure State where
  src : String
  lines : List LineMarks
  hasGetLines : Bool
  blkIndent : Int
  line : Nat
  lineMax : Nat
  parentType : String
  level : Int
  tokens : List Token
  deriving Repr, Inhabited

/-- The plugin configuration (`config` in the source). `className` and the
table attribute name and value are `undefined` (`none`) or a string. -/
structure Config where
  name : String
  startMarker : String
  startMarkerVertical : String
  endMarker : String
  allowAnywhere : Bool
  className : Option String
  tableAttributeName : Option String
  tableAttributeValue : Option String
  deriving Repr, Inhabited

/-- The defaults of `config` in the source. -/
def Config.default : Config where
  name := "yaml-frontmatter"
  startMarker := "---\n#yaml"
  startMarkerVertical := "---\n#yaml-v"
  endMarker := "---"
  allowAnywhere := true
  className := none
  tableAttributeName := none
  tableAttributeValue := none

/-- Host `StateBlock.prototype.push(type, tag, nesting)`: a new token with
`block = true`; a closing token lowers `state.level` before taking its level,
an opening token raises it afterwards; the token is appended to
`state.tokens`. -/
def State.push (st : State) (type tag : String) (nesting : Int) : State :=
  let lvl := if nesting < 0 then st.level - 1 else st.level
  let token : Token :=
    { type := type, tag := tag, nesting := nesting, level := lvl, block := true,
      map := none, content := .str "", children := none, markup := "", attrs := none }
  { st with
    level := if nesting > 0 then lvl + 1 else lvl
    tokens := st.tokens ++ [token] }

/-- Assignments to the fields of the token a preceding `push` returned: that
token is the last one of `state.tokens`. -/
def State.setLast (st : State) (f : Token → Token) : State :=
  { st with tokens := st.tokens.modifyLast f }

/-- Host `Token.prototype.attrPush([name, value])`. -/
def Token.attrPush (t : Token) (attr : String × Option String) : Token :=
  { t with attrs := some (t.attrs.getD [] ++ [attr]) }

/-! ## The table token builder -/

/-- Source: `createToken(state, type, tag, nesting, map)`. -/
def createToken (st : State) (type tag : String) (nesting : Int)
    (map : Option (Nat × Nat)) : State :=
  (st.push type tag nesting).setLast (fun t => { t with map := map })

/-- The inline leaf idiom of the source for a content that needs no coercion:
`const inline = state.push("inline", "", 0); inline.content = content;`
`inline.map = map; inline.children = []`. -/
def pushInline (st : State) (content : JsVal) (map : Option (Nat × Nat)) : State :=
  (st.push "inline" "" 0).setLast
    (fun t => { t with content := content, map := map, children := some [] })

/-- The inline leaf idiom of `createNestedTable`:
`const inline = state.push("inline", "", 0); inline.content = String(value);`
`inline.map = map; inline.children = []`. The token is pushed before `String`
runs: when `String` throws, the state at the throw holds the new token with
none of its fields assigned. -/
def pushInlineString (st : State) (value : JsVal) (map : Option (Nat × Nat)) :
    Except (JsError × State) State :=
  let st := st.push "inline" "" 0
  match jsString value with
  | .error err => .error (err, st)
  | .ok text =>
    .ok (st.setLast (fun t => { t with content := .str text, map := map, children := some [] }))

/-- Truthiness of an optional configuration string (`if (config.className)`). -/
def optTruthy : Option String → Bool
  | some s => !(s == "")
  | none => false

/-- Source: `addTableAttributes(token)`. -/
def addTableAttributes (cfg : Config) (token : Token) : Token :=
  let token := if optTruthy cfg.className then
      token.attrPush ("class", cfg.className) else token
  if optTruthy cfg.tableAttributeName then
    token.attrPush (cfg.tableAttributeName.getD "", cfg.tableAttributeValue)
  else token

/-- Source: `isObjectArray(value)`. -/
def isObjectArray : JsVal → Bool
  | .arr items =>
    decide (items.length > 0) &&
    items.all (fun item => jsTypeof item == "object" && !isNull item && !isArray item)
  | _ => false

/-- Source: `isPrimitiveArray(value)`. -/
def isPrimitiveArray : JsVal → Bool
  | .arr items =>
    decide (items.length > 0) &&
    items.all (fun item => jsTypeof item != "object" || isNull item)
  | _ => false

/-- The element `data[0]` of a list (`undefined` for the empty list). -/
def firstItem : List JsVal → JsVal
  | [] => .undefined
  | item :: _ => item

/-- A list read out of a value by a property read is smaller than the value:
the termination measure of the nested-table recursion. -/
theorem sizeOf_getProp_arr_lt (v : JsVal) (key : String) (sub : List JsVal)
    (h : getProp v key = .arr sub) : sizeOf (JsVal.arr sub) < sizeOf v := by
  have hlook : ∀ (es : List (String × JsVal)) (n : Nat),
      (∀ p ∈ es, (∃ xs, p.2 = JsVal.arr xs) → sizeOf p.2 < n) →
      ∀ w, es.lookup key = some w → (∃ xs, w = JsVal.arr xs) → sizeOf w < n := by
    intro es n
    induction es with
    | nil => intro _ w h; simp at h
    | cons p ps ih =>
      intro hall w h hw
      obtain ⟨k, u⟩ := p
      simp only [List.lookup] at h
      split at h
      · cases h
        exact hall (k, w) (List.mem_cons_self _ _) hw
      · exact ih (fun q hq => hall q (List.mem_cons_of_mem _ hq)) w h hw
  unfold getProp at h
  cases hl : (ownEntries v).lookup key with
  | none =>
    rw [hl] at h
    cases v with
    | obj props =>
      simp only [objectPrototypeGet] at h
      split at h
      · cases h
      · split at h
        · cases h
        · split at h <;> cases h
    | _ => cases h
  | some w =>
    rw [hl] at h
    simp only at h
    subst h
    refine hlook (ownEntries v) (sizeOf v) ?_ _ hl ⟨sub, rfl⟩
    intro p hp hparr
    cases v with
    | obj props =>
      simp only [ownEntries] at hp
      have h1 := List.sizeOf_lt_of_mem hp
      obtain ⟨k, u⟩ := p
      simp at h1 ⊢
      omega
    | arr items =>
      simp only [ownEntries, List.mem_iff_get, List.get_eq_getElem, List.getElem_zipWith] at hp
      obtain ⟨i, hi⟩ := hp
      subst hi
      have h1 := List.sizeOf_lt_of_mem (List.getElem_mem (l := items) (n := i.1) (by
        have := i.2; simp at this; omega))
      simp at h1 ⊢
      omega
    | str s =>
      simp only [ownEntries, List.mem_iff_get, List.get_eq_getElem, List.getElem_zipWith] at hp
      obtain ⟨i, hi⟩ := hp
      subst hi
      obtain ⟨xs, hxs⟩ := hparr
      simp at hxs
    | undefined => simp [ownEntries] at hp
    | null => simp [ownEntries] at hp
    | bool b => simp [ownEntries] at hp
    | num t => simp [ownEntries] at hp
    | native n => simp [ownEntries] at hp

/-- Source: `createNestedTable(state, data, map)`. Both tests of the source
start with `isArray(data)`, so a value that is not a list pushes nothing. The
result is the state after the call, or the exception of a `String` coercion
with the state at the throw. -/
def createNestedTable (cfg : Config) (st : State) (data : JsVal)
    (map : Option (Nat × Nat)) : Except (JsError × State) State :=
  match data with
  | .arr items =>
    if isPrimitiveArray (.arr items) then do
      let st := createToken st (cfg.name ++ "_nested_open") "table" 1 map
      let st := createToken st (cfg.name ++ "_tbody_open") "tbody" 1 map
      let st := createToken st (cfg.name ++ "_tr_open") "tr" 1 map
      let st ← items.foldlM (fun st item => do
        let st := createToken st (cfg.name ++ "_td_open") "td" 1 map
        let st ← pushInlineString st item map
        pure (createToken st (cfg.name ++ "_td_close") "td" (-1) none)) st
      let st := createToken st (cfg.name ++ "_tr_close") "tr" (-1) none
      let st := createToken st (cfg.name ++ "_tbody_close") "tbody" (-1) none
      pure (createToken st (cfg.name ++ "_nested_close") "table" (-1) none)
    else if isObjectArray (.arr items) then do
      let keys := ownKeys (firstItem items)
      let st := createToken st (cfg.name ++ "_nested_open") "table" 1 map
      let st := createToken st (cfg.name ++ "_thead_open") "thead" 1 map
      let st := createToken st (cfg.name ++ "_tr_open") "tr" 1 map
      let st := keys.foldl (fun st key =>
        let st := createToken st (cfg.name ++ "_th_open") "th" 1 map
        let st := pushInline st (.str key) map
        createToken st (cfg.name ++ "_th_close") "th" (-1) none) st
      let st := createToken st (cfg.name ++ "_tr_close") "tr" (-1) none
      let st := createToken st (cfg.name ++ "_thead_close") "thead" (-1) none
      let st := createToken st (cfg.name ++ "_tbody_open") "tbody" 1 map
      let st ← items.attach.foldlM (fun st ⟨row, _⟩ => do
        let st := createToken st (cfg.name ++ "_tr_open") "tr" 1 map
        let st ← keys.foldlM (fun st key => do
          let st := createToken st (cfg.name ++ "_td_open") "td" 1 map
          let st ←
            match _h : getProp row key with
            | .arr sub => createNestedTable cfg st (.arr sub) map
            | other => pushInlineString st other map
          pure (createToken st (cfg.name ++ "_td_close") "td" (-1) none)) st
        pure (createToken st (cfg.name ++ "_tr_close") "tr" (-1) none)) st
      let st := createToken st (cfg.name ++ "_tbody_close") "tbody" (-1) none
      pure (createToken st (cfg.name ++ "_nested_close") "table" (-1) none)
    else pure st
  | _ => pure st
termination_by sizeOf data
decreasing_by
  simp_wf
  have hrow := List.sizeOf_lt_of_mem ‹row ∈ _›
  have hsub := sizeOf_getProp_arr_lt row key sub ‹_›
  simp at hsub
  omega

/-- Source: `createCell(state, cellType, content, map)`. The content of the
inline leaf is the value handed in, as it is. -/
def createCell (cfg : Config) (st : State) (cellType : String) (content : JsVal)
    (map : Option (Nat × Nat)) : Except (JsError × State) State := do
  let st := createToken st (cfg.name ++ "_" ++ cellType ++ "_open") cellType 1 map
  let st ←
    if isArray content then createNestedTable cfg st content map
    else pure (pushInline st content map)
  pure (createToken st (cfg.name ++ "_" ++ cellType ++ "_close") cellType (-1) none)

/-- Source: `createRow(state, keys, data, cellType, map)`. `String(value)` runs
before `createCell`: when it throws, the cell has not been opened. -/
def createRow (cfg : Config) (st : State) (keys : List String) (data : JsVal)
    (cellType : String) (map : Option (Nat × Nat)) : Except (JsError × State) State := do
  let st := createToken st (cfg.name ++ "_tr_open") "tr" 1 map
  let st ← keys.foldlM (fun st key => do
    let value := getProp data key
    let content ←
      if isArray value then pure value
      else
        match jsString value with
        | .error err => throw (err, st)
        | .ok text => pure (JsVal.str text)
    createCell cfg st cellType content map) st
  pure (createToken st (cfg.name ++ "_tr_close") "tr" (-1) none)

/-- The header data of the horizontal layout:
`Object.fromEntries(keys.map((k) => [k, k]))`. -/
def headerData (keys : List String) : JsVal :=
  .obj (keys.map (fun k => (k, .str k)))

/-- Source: `pushTokensToState(state, blockStartLine, blockEndLine,`
`frontmatterContents, vertical)`. `Object.keys` throws for `null` and
`undefined`, before the state is touched. An exception of the builder leaves
the function after `state.parentType` and `state.lineMax` were overwritten and
before they are restored. Otherwise the result is `true` with the state after
the call. -/
def pushTokensToState (cfg : Config) (st : State) (blockStartLine blockEndLine : Nat)
    (frontmatterContents : JsVal) (vertical : Bool) :
    Except (JsError × State) (Bool × State) :=
  let oldParent := st.parentType
  let oldLineMax := st.lineMax
  match objectKeys frontmatterContents with
  | .error err => .error (err, st)
  | .ok keys => do
    let map := some (blockStartLine, blockEndLine)
    let st := { st with parentType := cfg.name, lineMax := blockEndLine }
    let st := createToken st (cfg.name ++ "_open") "table" 1 map
    let st := st.setLast (fun t =>
      addTableAttributes cfg
        { t with
          markup := if vertical then cfg.startMarkerVertical else cfg.startMarker
          block := true })
    let st ←
      if vertical then do
        let st := createToken st (cfg.name ++ "_tbody_open") "tbody" 1 map
        let st ← keys.foldlM (fun st key => do
          let st := createToken st (cfg.name ++ "_tr_open") "tr" 1 map
          let st ← createCell cfg st "th" (.str key) map
          let st ← createCell cfg st "td" (getProp frontmatterContents key) map
          pure (createToken st (cfg.name ++ "_tr_close") "tr" (-1) none)) st
        pure (createToken st (cfg.name ++ "_tbody_close") "tbody" (-1) none)
      else do
        let st := createToken st (cfg.name ++ "_thead_open") "thead" 1 map
        let st ← createRow cfg st keys (headerData keys) "th" map
        let st := createToken st (cfg.name ++ "_thead_close") "thead" (-1) none
        let st := createToken st (cfg.name ++ "_tbody_open") "tbody" 1 map
        let st ← createRow cfg st keys frontmatterContents "td" map
        pure (createToken st (cfg.name ++ "_tbody_close") "tbody" (-1) none)
    let st := createToken st (cfg.name ++ "_close") "table" (-1) none
    let st := st.setLast (fun t => { t with markup := cfg.endMarker, block := true })
    pure (true, { st with parentType := oldParent, lineMax := oldLineMax, line := blockEndLine + 1 })

/-! ## The boundary scanner and the decoder adapter -/

/-- JavaScript `s.slice(start, stop)` for non-negative integer bounds. -/
def jsSlice (s : String) (start stop : Nat) : String :=
  ⟨(s.data.drop start).take (stop - start)⟩

/-- The pieces of `s.split("\n")`, on code units. -/
def splitLF : List Char → List (List Char)
  | [] => [[]]
  | c :: cs =>
    if c = '\n' then [] :: splitLF cs
    else
      match splitLF cs with
      | [] => [[c]]
      | piece :: pieces => (c :: piece) :: pieces

/-- JavaScript `marker.split("\n")`. -/
def jsSplitLines (s : String) : List String :=
  (splitLF s.data).map String.mk

/-- JavaScript `text.replace(/\r$/, "")`: one carriage return at the very end
of the text is removed. -/
def dropTrailingCR (s : String) : String :=
  if s.data.getLast? = some '\r' then ⟨s.data.dropLast⟩ else s

/-- The code units `String.prototype.trim` strips: ECMAScript white space and
line terminators. -/
def isJsSpace (c : Char) : Bool :=
  let n := c.toNat
  n == 0x09 || n == 0x0A || n == 0x0B || n == 0x0C || n == 0x0D || n == 0x20 ||
  n == 0xA0 || n == 0x1680 || (0x2000 ≤ n && n ≤ 0x200A) || n == 0x2028 ||
  n == 0x2029 || n == 0x202F || n == 0x205F || n == 0x3000 || n == 0xFEFF

/-- JavaScript `s.trim()`. -/
def jsTrim (s : String) : String :=
  ⟨((s.data.dropWhile isJsSpace).reverse.dropWhile isJsSpace).reverse⟩

/-- Source: `getLine(state, line)`. For a line outside the line index the marks
are `undefined`, their sum is `NaN`, and `slice(NaN, undefined)` is the whole
text. -/
def getLine (st : State) (line : Nat) : String :=
  match st.lines[line]? with
  | some m => jsSlice st.src (m.bMark + m.tShift) m.eMark
  | none => st.src

/-- Source: `checkLine(state, line, marker)`. -/
def checkLine (st : State) (line : Nat) (marker : String) : Bool :=
  let markerLines := jsSplitLines marker
  markerLines.enum.all (fun (i, markerLine) =>
    let text := dropTrailingCR (getLine st (line + i))
    jsTrim text == jsTrim markerLine)

/-- Source: `isStartMarker(state, line)`. -/
def isStartMarker (cfg : Config) (st : State) (line : Nat) : Bool :=
  checkLine st line cfg.startMarker

/-- Source: `isStartMarkerVertical(state, line)`. -/
def isStartMarkerVertical (cfg : Config) (st : State) (line : Nat) : Bool :=
  checkLine st line cfg.startMarkerVertical

/-- Source: `isEndMarker(state, line)`. -/
def isEndMarker (cfg : Config) (st : State) (line : Nat) : Bool :=
  checkLine st line cfg.endMarker

/-- Source: `findEndOfBlock(state, startLine, endLine)`; the result `false` is
`none`. The loop visits `startLine + 1, ..., endLine - 1` in order. -/
def findEndOfBlock (cfg : Config) (st : State) (startLine endLine : Nat) : Option Nat :=
  (List.range' (startLine + 1) (endLine - (startLine + 1))).find?
    (fun line => isEndMarker cfg st line)

/-- Host `isSpace(code)`: a space or a tab. -/
def isSpaceCode (c : Char) : Bool :=
  c.toNat == 0x20 || c.toNat == 0x09

/-- The indentation loop of the host's `getLines`: starting at offset `first`
with `lineIndent` columns consumed, it consumes white space (and characters
masked by `tShift`) while `first < last` and `lineIndent < indent`. `fuel` is
`last - first`, the number of iterations the loop condition allows. The result
is the final `(first, lineIndent)`. -/
def getLinesSkip (src : List Char) (m : LineMarks) (indent : Nat) :
    Nat → Nat → Nat → Nat × Nat
  | 0, first, lineIndent => (first, lineIndent)
  | fuel + 1, first, lineIndent =>
    if lineIndent < indent then
      match src.get? first with
      | some ch =>
        if isSpaceCode ch then
          if ch.toNat == 0x09 then
            getLinesSkip src m indent fuel (first + 1)
              (lineIndent + (4 - (lineIndent + m.bsCount) % 4))
          else getLinesSkip src m indent fuel (first + 1) (lineIndent + 1)
        else if first - m.bMark < m.tShift then
          getLinesSkip src m indent fuel (first + 1) (lineIndent + 1)
        else (first, lineIndent)
      | none =>
        if first - m.bMark < m.tShift then
          getLinesSkip src m indent fuel (first + 1) (lineIndent + 1)
        else (first, lineIndent)
    else (first, lineIndent)

/-- One entry of the queue of the host's `getLines`: the text of `line`, cut
with up to `indent` columns of indentation removed. `withLF` is the test
`line + 1 < end || keepLastLF`. For a line outside the line index the marks are
`undefined`: the slice is empty when the end is `NaN` and the whole text when
it is `undefined`. -/
def getLinesEntry (st : State) (indent : Nat) (withLF : Bool) (line : Nat) : String :=
  match st.lines[line]? with
  | none => if withLF then "" else st.src
  | some m =>
    let last := if withLF then m.eMark + 1 else m.eMark
    let (first, lineIndent) := getLinesSkip st.src.data m indent (last - m.bMark) m.bMark 0
    if lineIndent > indent then
      ⟨List.replicate (lineIndent - indent) ' '⟩ ++ jsSlice st.src first last
    else jsSlice st.src first last

/-- Host `StateBlock.prototype.getLines(begin, end, indent, keepLastLF)`. An
`undefined` indent never passes the test `lineIndent < indent`, as the indent 0
does. -/
def getLines (st : State) (begin_ end_ : Nat) (indent : Option Nat) (keepLastLF : Bool) :
    String :=
  if begin_ ≥ end_ then ""
  else
    String.join ((List.range' begin_ (end_ - begin_)).map (fun line =>
      getLinesEntry st (indent.getD 0) (decide (line + 1 < end_) || keepLastLF) line))

/-- The text `content` that `parseYaml(state, startOfBlock, endOfBlock)` hands
to the decoder. Without `getLines` it is a slice of the text; a mark outside
the line index makes the start `NaN` (read as 0) or the end `NaN` (read as 0). -/
def parseYamlContent (st : State) (startOfBlock endOfBlock : Nat) : String :=
  if st.hasGetLines then
    getLines st startOfBlock (endOfBlock + 1)
      ((st.lines[startOfBlock]?).map (fun m => m.tShift)) false
  else
    jsSlice st.src
      (((st.lines[startOfBlock]?).map (fun m => m.bMark + m.tShift)).getD 0)
      (((st.lines[endOfBlock]?).map (fun m => m.eMark + 1)).getD 0)

/-- Source: `parseYaml(state, startOfBlock, endOfBlock)`, with the external
decoder `yamlLoad` as a parameter: it returns a value or throws. -/
def parseYaml (yamlLoad : String → Except JsError JsVal) (st : State)
    (startOfBlock endOfBlock : Nat) : Except JsError JsVal :=
  yamlLoad (parseYamlContent st startOfBlock endOfBlock)

/-- The test `isEmptyObject` of `parseFrontmatter`. -/
def isEmptyObject (frontmatterContents : JsVal) : Bool :=
  !truthy frontmatterContents ||
  (jsTypeof frontmatterContents == "object" && !isArray frontmatterContents &&
    (ownKeys frontmatterContents).length == 0)

/-- Source: `parseFrontmatter(state, startLine, endLine, silent)`: the result
of the rule and the state after the call, or the exception that leaves the
rule with the state at the throw. An exception of the decoder is caught; one
of the builder is not. -/
def parseFrontmatter (cfg : Config) (yamlLoad : String → Except JsError JsVal)
    (st : State) (startLine endLine : Nat) (silent : Bool) :
    Except (JsError × State) (Bool × State) :=
  if !cfg.allowAnywhere && (startLine != 0 || decide (st.blkIndent > 0)) then .ok (false, st)
  else
    let vertical := isStartMarkerVertical cfg st startLine
    if !isStartMarker cfg st startLine && !vertical then .ok (false, st)
    else if silent then .ok (true, st)
    else
      match findEndOfBlock cfg st startLine endLine with
      | none => .ok (false, st)
      | some blockEndLine =>
        match parseYaml yamlLoad st (startLine + 1) (blockEndLine - 1) with
        | .error _ => .ok (false, st)
        | .ok frontmatterContents =>
          if isEmptyObject frontmatterContents then .ok (false, st)
          else pushTokensToState cfg st startLine blockEndLine frontmatterContents vertical

/-! ## Vocabulary of the statements -/

/-- An opening token as `createToken` leaves it: nesting `1`, the level of the
state at the push, the source span `map`. -/
def openTok (type tag : String) (level : Int) (map : Option (Nat × Nat)) : Token :=
  { type := type, tag := tag, nesting := 1, level := level, block := true,
    map := map, content := .str "", children := none, markup := "", attrs := none }

/-- A closing token as `createToken` leaves it: nesting `-1`, no source span. -/
def closeTok (type tag : String) (level : Int) : Token :=
  { type := type, tag := tag, nesting := -1, level := level, block := true,
    map := none, content := .str "", children := none, markup := "", attrs := none }

/-- An inline leaf as the plugin leaves it: nesting `0`, empty tag, the given
content, the empty children array. -/
def inlineTok (content : JsVal) (level : Int) (map : Option (Nat × Nat)) : Token :=
  { type := "inline", tag := "", nesting := 0, level := level, block := true,
    map := map, content := content, children := some [], markup := "", attrs := none }

/-- The inline token as `state.push("inline", "", 0)` returns it, none of its
fields assigned yet: what the state holds when `String` throws in
`createNestedTable`. -/
def bareInlineTok (level : Int) : Token :=
  { type := "inline", tag := "", nesting := 0, level := level, block := true,
    map := none, content := .str "", children := none, markup := "", attrs := none }

/-- The state after `ts` was appended to the tokens and the level moved by `d`. -/
def State.emit (st : State) (ts : List Token) (d : Int) : State :=
  { st with tokens := st.tokens ++ ts, level := st.level + d }

/-- A state with no token, at nesting level `level`. -/
def State.blank (level : Int) : State :=
  { src := "", lines := [], hasGetLines := true, blkIndent := 0, line := 0, lineMax := 0,
    parentType := "root", level := level, tokens := [] }

/-- What a run of the builder does to the state: the tokens it appends, the
change of `state.level`, and the exception it ends with, if it throws. -/
structure Emission where
  tokens : List Token
  delta : Int
  thrown : Option JsError

/-- The emission of a run that appends `ts`, moves the level by `d` and
returns. -/
def Emission.ok (ts : List Token) (d : Int) : Emission :=
  { tokens := ts, delta := d, thrown := none }

/-- The emission of `a` followed by `b`: when `a` throws, `b` does not run. -/
def Emission.andThen (a b : Emission) : Emission :=
  match a.thrown with
  | some _ => a
  | none => { tokens := a.tokens ++ b.tokens, delta := a.delta + b.delta, thrown := b.thrown }

/-- The emission of a loop: the bodies in order, up to the first that throws. -/
def Emission.seq : List Emission → Emission
  | [] => Emission.ok [] 0
  | a :: rest => a.andThen (Emission.seq rest)

/-- The outcome of a run with emission `em` from the state `st`: the state with
the tokens appended and the level moved, returned or thrown with the
exception. -/
def State.finish (st : State) (em : Emission) : Except (JsError × State) State :=
  match em.thrown with
  | none => .ok (st.emit em.tokens em.delta)
  | some err => .error (err, st.emit em.tokens em.delta)

/-- The emission of `createNestedTable` on `data` from a state at nesting level
`level`. -/
def nestedOut (cfg : Config) (level : Int) (data : JsVal) (map : Option (Nat × Nat)) :
    Emission :=
  match createNestedTable cfg (State.blank level) data map with
  | .ok st => { tokens := st.tokens, delta := st.level - level, thrown := none }
  | .error (err, st) => { tokens := st.tokens, delta := st.level - level, thrown := some err }

/-- The emission of the inline leaf idiom of `createNestedTable`: the leaf with
the text `String(value)`, or the bare token and the exception of `String`. -/
def stringLeafOut (level : Int) (value : JsVal) (map : Option (Nat × Nat)) : Emission :=
  match jsString value with
  | .ok text => Emission.ok [inlineTok (.str text) level map] 0
  | .error err => { tokens := [bareInlineTok level], delta := 0, thrown := some err }

/-- The body of a data cell of a nested table: the nested table of a list, else
the inline leaf with `String(value)`. -/
def valueOut (cfg : Config) (level : Int) (v : JsVal) (map : Option (Nat × Nat)) : Emission :=
  if isArray v then nestedOut cfg level v map else stringLeafOut level v map

/-- The emission of a cell or row: the open token, the body, the close token. -/
def wrapOut (openT : Token) (body : Emission) (closeT : Token) : Emission :=
  (Emission.ok [openT] 1).andThen (body.andThen (Emission.ok [closeT] (-1)))

/-- The single-row table of a list of scalars, opened at nesting level `level`. -/
def primitiveOut (cfg : Config) (level : Int) (items : List JsVal)
    (map : Option (Nat × Nat)) : Emission :=
  (Emission.ok
    [openTok (cfg.name ++ "_nested_open") "table" level map,
     openTok (cfg.name ++ "_tbody_open") "tbody" (level + 1) map,
     openTok (cfg.name ++ "_tr_open") "tr" (level + 2) map] 3).andThen
  ((Emission.seq (items.map (fun item =>
      wrapOut (openTok (cfg.name ++ "_td_open") "td" (level + 3) map)
        (stringLeafOut (level + 4) item map)
        (closeTok (cfg.name ++ "_td_close") "td" (level + 3))))).andThen
   (Emission.ok
    [closeTok (cfg.name ++ "_tr_close") "tr" (level + 2),
     closeTok (cfg.name ++ "_tbody_close") "tbody" (level + 1),
     closeTok (cfg.name ++ "_nested_close") "table" level] (-3)))

/-- The table of a list of records, opened at nesting level `level`: a header
row of the keys of the first element, then one row per element with one data
cell per header key. -/
def recordOut (cfg : Config) (level : Int) (items : List JsVal)
    (map : Option (Nat × Nat)) : Emission :=
  (Emission.ok
    ([openTok (cfg.name ++ "_nested_open") "table" level map,
      openTok (cfg.name ++ "_thead_open") "thead" (level + 1) map,
      openTok (cfg.name ++ "_tr_open") "tr" (level + 2) map] ++
     (ownKeys (firstItem items)).flatMap (fun key =>
      [openTok (cfg.name ++ "_th_open") "th" (level + 3) map,
       inlineTok (.str key) (level + 4) map,
       closeTok (cfg.name ++ "_th_close") "th" (level + 3)]) ++
     [closeTok (cfg.name ++ "_tr_close") "tr" (level + 2),
      closeTok (cfg.name ++ "_thead_close") "thead" (level + 1),
      openTok (cfg.name ++ "_tbody_open") "tbody" (level + 1) map]) 2).andThen
  ((Emission.seq (items.map (fun row =>
      wrapOut (openTok (cfg.name ++ "_tr_open") "tr" (level + 2) map)
        (Emission.seq ((ownKeys (firstItem items)).map (fun key =>
          wrapOut (openTok (cfg.name ++ "_td_open") "td" (level + 3) map)
            (valueOut cfg (level + 4) (getProp row key) map)
            (closeTok (cfg.name ++ "_td_close") "td" (level + 3)))))
        (closeTok (cfg.name ++ "_tr_close") "tr" (level + 2))))).andThen
   (Emission.ok
    [closeTok (cfg.name ++ "_tbody_close") "tbody" (level + 1),
     closeTok (cfg.name ++ "_nested_close") "table" level] (-2)))

/-- The emission of `createCell` on `content` from nesting level `level`: the
open token, the nested table of a list or else one inline leaf holding the
content as it is, the close token. -/
def cellOut (cfg : Config) (level : Int) (cellType : String) (content : JsVal)
    (map : Option (Nat × Nat)) : Emission :=
  wrapOut (openTok (cfg.name ++ "_" ++ cellType ++ "_open") cellType level map)
    (if isArray content then nestedOut cfg (level + 1) content map
     else Emission.ok [inlineTok content (level + 1) map] 0)
    (closeTok (cfg.name ++ "_" ++ cellType ++ "_close") cellType level)

/-- The emission of one round of the loop of `createRow`: the cell of the list
itself for a list value; otherwise the cell of `String(value)`, or nothing and
the exception when `String` throws. -/
def rowCellOut (cfg : Config) (level : Int) (data : JsVal) (cellType : String)
    (map : Option (Nat × Nat)) (key : String) : Emission :=
  if isArray (getProp data key) then cellOut cfg level cellType (getProp data key) map
  else
    match jsString (getProp data key) with
    | .error err => { tokens := [], delta := 0, thrown := some err }
    | .ok text => cellOut cfg level cellType (.str text) map

/-- The emission of `createRow`: a tr around the rounds of its loop. -/
def rowOut (cfg : Config) (level : Int) (keys : List String) (data : JsVal)
    (cellType : String) (map : Option (Nat × Nat)) : Emission :=
  wrapOut (openTok (cfg.name ++ "_tr_open") "tr" level map)
    (Emission.seq (keys.map (rowCellOut cfg (level + 1) data cellType map)))
    (closeTok (cfg.name ++ "_tr_close") "tr" level)

/-- The outermost table-open token after `pushTokensToState` has set its
markup and attributes. -/
def tableOpenTok (cfg : Config) (level : Int) (map : Option (Nat × Nat))
    (vertical : Bool) : Token :=
  addTableAttributes cfg
    { openTok (cfg.name ++ "_open") "table" level map with
      markup := if vertical then cfg.startMarkerVertical else cfg.startMarker }

/-- The outermost table-close token after `pushTokensToState` has set its
markup. -/
def tableCloseTok (cfg : Config) (level : Int) : Token :=
  { closeTok (cfg.name ++ "_close") "table" level with markup := cfg.endMarker }

/-- The emission of the horizontal layout for the value `v`, opened at nesting
level `level`: the table-open token, a header row of the keys, one body row of
the values built by `createRow`, the closing tokens. -/
def horizontalOut (cfg : Config) (level : Int) (v : JsVal) (map : Option (Nat × Nat)) :
    Emission :=
  (Emission.ok
    ([tableOpenTok cfg level map false,
      openTok (cfg.name ++ "_thead_open") "thead" (level + 1) map,
      openTok (cfg.name ++ "_tr_open") "tr" (level + 2) map] ++
     (ownKeys v).flatMap (fun key =>
      [openTok (cfg.name ++ "_th_open") "th" (level + 3) map,
       inlineTok (.str key) (level + 4) map,
       closeTok (cfg.name ++ "_th_close") "th" (level + 3)]) ++
     [closeTok (cfg.name ++ "_tr_close") "tr" (level + 2),
      closeTok (cfg.name ++ "_thead_close") "thead" (level + 1),
      openTok (cfg.name ++ "_tbody_open") "tbody" (level + 1) map]) 2).andThen
  ((rowOut cfg (level + 2) (ownKeys v) v "td" map).andThen
   (Emission.ok
    [closeTok (cfg.name ++ "_tbody_close") "tbody" (level + 1),
     tableCloseTok cfg level] (-2)))

/-- The emission of the vertical layout for the value `v`, opened at nesting
level `level`: one row per key, a th cell with the key and a td cell built by
`createCell` from the value as it is. -/
def verticalOut (cfg : Config) (level : Int) (v : JsVal) (map : Option (Nat × Nat)) :
    Emission :=
  (Emission.ok
    [tableOpenTok cfg level map true,
     openTok (cfg.name ++ "_tbody_open") "tbody" (level + 1) map] 2).andThen
  ((Emission.seq ((ownKeys v).map (fun key =>
      (Emission.ok
        [openTok (cfg.name ++ "_tr_open") "tr" (level + 2) map,
         openTok (cfg.name ++ "_th_open") "th" (level + 3) map,
         inlineTok (.str key) (level + 4) map,
         closeTok (cfg.name ++ "_th_close") "th" (level + 3)] 1).andThen
      ((cellOut cfg (level + 3) "td" (getProp v key) map).andThen
       (Emission.ok [closeTok (cfg.name ++ "_tr_close") "tr" (level + 2)] (-1)))))).andThen
   (Emission.ok
    [closeTok (cfg.name ++ "_tbody_close") "tbody" (level + 1),
     tableCloseTok cfg level] (-2)))

/-- The emission of the chosen layout. -/
def layoutOut (cfg : Config) (level : Int) (v : JsVal) (map : Option (Nat × Nat))
    (vertical : Bool) : Emission :=
  if vertical then verticalOut cfg level v map else horizontalOut cfg level v map

/-- The outcome of `pushTokensToState` with emission `em` from the state `st`:
when the run returns, the result `true` and the state with the tokens appended
and `line` set after the block; when it throws, the exception and the state at
the throw, in which `parentType` and `lineMax` are the overwritten ones. -/
def State.outcome (cfg : Config) (st : State) (blockEndLine : Nat) (em : Emission) :
    Except (JsError × State) (Bool × State) :=
  match em.thrown with
  | none => .ok (true, { st with tokens := st.tokens ++ em.tokens, line := blockEndLine + 1 })
  | some err =>
    .error (err, { st with
      parentType := cfg.name
      lineMax := blockEndLine
      tokens := st.tokens ++ em.tokens
      level := st.level + em.delta })

/-- A scalar in the words of the specification: neither a list nor a mapping. -/
def isScalar : JsVal → Bool
  | .arr _ => false
  | .obj _ => false
  | _ => true

/-- A mapping (a record). -/
def isMapping : JsVal → Bool
  | .obj _ => true
  | _ => false

/-- The number of opening tokens with the given tag in a token sequence. -/
def countOpen (tag : String) (ts : List Token) : Nat :=
  ts.countP (fun t => t.tag == tag && t.nesting == 1)

/-- A primitive list in the words of the specification: non-empty, every
element a non-null, non-list, non-record scalar. -/
def SpecPrimitiveList (items : List JsVal) : Prop :=
  items ≠ [] ∧ ∀ x ∈ items, isScalar x = true ∧ x ≠ JsVal.null

/-- A record list in the words of the specification: non-empty, every element
a mapping. -/
def SpecRecordList (items : List JsVal) : Prop :=
  items ≠ [] ∧ ∀ x ∈ items, isMapping x = true

/-- One step of the bracket check on a token sequence, with the stack of the
tags of the open tokens not yet closed (innermost first): an open token
(nesting `1`) is pushed, a close token (nesting `-1`) must carry the tag on top
of the stack and pops it, a leaf (nesting `0`) must sit directly inside a th or
td cell; an inline token must be a leaf. Any other token fails the check. -/
def bracketStep (stack : List String) (t : Token) : Option (List String) :=
  if t.nesting = 1 then
    if t.type = "inline" then none else some (t.tag :: stack)
  else if t.nesting = -1 then
    if t.type = "inline" then none
    else
      match stack with
      | top :: rest => if top = t.tag then some rest else none
      | [] => none
  else if t.nesting = 0 then
    match stack with
    | top :: _ => if top = "th" ∨ top = "td" then some stack else none
    | [] => none
  else none

/-- The bracket check of a token sequence from a given stack: the stack after
the last token, or `none` when a token fails the check. -/
def bracketRun : List String → List Token → Option (List String)
  | stack, [] => some stack
  | stack, t :: ts => (bracketStep stack t).bind (fun stack1 => bracketRun stack1 ts)

/-- The sum of the nesting fields of a token sequence. -/
def nestingSum (ts : List Token) : Int :=
  (ts.map (fun t => t.nesting)).sum

/-- Whether the call gets past the gate and the start detection. -/
def startsBlock (cfg : Config) (st : State) (s : Nat) : Bool :=
  !(!cfg.allowAnywhere && (s != 0 || decide (st.blkIndent > 0))) &&
  (isStartMarker cfg st s || isStartMarkerVertical cfg st s)

/-- The parse state the host builds for an unindented text: one `(bMark, eMark)`
pair per line, followed by the host's extra entry at the end of the text; no
token yet, cursor on line 0. -/
def docState (src : String) (marks : List (Nat × Nat)) : State :=
  { src := src
    lines := marks.map (fun m => { bMark := m.1, eMark := m.2, tShift := 0, bsCount := 0 })
    hasGetLines := true, blkIndent := 0, line := 0, lineMax := marks.length - 1
    parentType := "root", level := 0, tokens := [] }

/-- The document `---`, `#yaml`, `a: 1`, `---`. -/
def docA : State :=
  docState "---\n#yaml\na: 1\n---" [(0, 3), (4, 9), (10, 14), (15, 18), (18, 18)]

/-- Scenario C: the document `---`, `#yaml`, `---`. -/
def docC : State :=
  docState "---\n#yaml\n---" [(0, 3), (4, 9), (10, 13), (13, 13)]

/-- The document `---`, `#yaml`, `- 1`, `- 2`, `---`. -/
def docList : State :=
  docState "---\n#yaml\n- 1\n- 2\n---"
    [(0, 3), (4, 9), (10, 13), (14, 17), (18, 21), (21, 21)]

/-- The document `---`, `#yaml`, `a: 1` with no end delimiter. -/
def docNoEnd : State :=
  docState "---\n#yaml\na: 1" [(0, 3), (4, 9), (10, 14), (14, 14)]

/-- The document `---`, `#yaml`, `a: {toString: 1}`, `---`. -/
def docThrow : State :=
  docState "---\n#yaml\na: \x7btoString: 1\x7d\n---"
    [(0, 3), (4, 9), (10, 26), (27, 30), (30, 30)]

/-- The default configuration with `allowAnywhere` switched off. -/
def Config.topOnly : Config :=
  { Config.default with allowAnywhere := false }

/-- The default configuration with a two-line end marker. -/
def Config.twoLineEnd : Config :=
  { Config.default with endMarker := "...\n---" }

/-- The document `---`, `#yaml`, `a: 1`, `...`, `---`. -/
def docTwoEnd : State :=
  docState "---\n#yaml\na: 1\n...\n---"
    [(0, 3), (4, 9), (10, 14), (15, 18), (19, 22), (22, 22)]

/-- A token with its `level` field reset: what is left are the type, tag,
nesting, block flag, source span, content, children, markup and attributes. -/
def Token.eraseLevel (t : Token) : Token :=
  { t with level := 0 }

/-- The default configuration with the class name `fm`. -/
def Config.withClass : Config :=
  { Config.default with className := some "fm" }

/-- Source: `renderDefault(tokens, idx, _options, env, self)`, with the host's
`self.renderToken` as a parameter. The result is the token array after the
call (the rule mutates `tokens[idx]`) and the markup returned. An index outside
the array makes `tokens[idx].type` throw. -/
def renderDefault (cfg : Config) (renderToken : List Token → Nat → String)
    (tokens : List Token) (idx : Nat) : Except JsError (List Token × String) :=
  match tokens[idx]? with
  | none => .error .typeError
  | some token =>
    let tokens :=
      if token.type = cfg.name ++ "_open" then tokens.set idx (addTableAttributes cfg token)
      else tokens
    if token.type = cfg.name ++ "_nested_open" then .ok (tokens, "<table>")
    else if token.type = cfg.name ++ "_nested_close" then .ok (tokens, "</table>")
    else .ok (tokens, renderToken tokens idx)

/-- An emission with the `level` field of its tokens reset. -/
def Emission.eraseLevel (em : Emission) : Emission :=
  { em with tokens := em.tokens.map Token.eraseLevel }

/-! ## Basic facts on emission -/

theorem State.emit_nil_zero (st : State) : st.emit [] 0 = st := by
  cases st
  simp [State.emit]

theorem State.emit_emit (st : State) (a b : List Token) (d e : Int) :
    (st.emit a d).emit b e = st.emit (a ++ b) (d + e) := by
  simp [State.emit, add_assoc]

@[simp] theorem State.emit_level (st : State) (a : List Token) (d : Int) :
    (st.emit a d).level = st.level + d := rfl

@[simp] theorem State.emit_tokens (st : State) (a : List Token) (d : Int) :
    (st.emit a d).tokens = st.tokens ++ a := rfl

theorem State.emit_zero (st : State) (ts : List Token) :
    st.emit ts 0 = { st with tokens := st.tokens ++ ts } := by
  simp [State.emit]

theorem State.emit_congr (st : State) (a b : List Token) (d e : Int) (hab : a = b)
    (hde : d = e) : st.emit a d = st.emit b e := by
  rw [hab, hde]

theorem createToken_open (st : State) (type tag : String) (map : Option (Nat × Nat)) :
    createToken st type tag 1 map = st.emit [openTok type tag st.level map] 1 := by
  simp [createToken, State.push, State.setLast, State.emit, openTok,
    List.modifyLast_append_one]

theorem createToken_close (st : State) (type tag : String) :
    createToken st type tag (-1) none = st.emit [closeTok type tag (st.level - 1)] (-1) := by
  simp [createToken, State.push, State.setLast, State.emit, closeTok,
    List.modifyLast_append_one]
  rfl

theorem pushInline_eq (st : State) (content : JsVal) (map : Option (Nat × Nat)) :
    pushInline st content map = st.emit [inlineTok content st.level map] 0 := by
  simp [pushInline, State.push, State.setLast, State.emit, inlineTok,
    List.modifyLast_append_one]

theorem pushInlineString_eq (st : State) (value : JsVal) (map : Option (Nat × Nat)) :
    pushInlineString st value map = st.finish (stringLeafOut st.level value map) := by
  unfold pushInlineString stringLeafOut
  cases jsString value with
  | error err =>
    simp [State.finish, State.push, State.emit, bareInlineTok]
  | ok text =>
    simp [State.finish, Emission.ok, State.push, State.setLast, State.emit, inlineTok,
      List.modifyLast_append_one]

theorem State.finish_ok (st : State) (ts : List Token) (d : Int) :
    st.finish (Emission.ok ts d) = .ok (st.emit ts d) := rfl

/-- A step with a pure prefix, a body that may throw and a pure suffix. The
suffix tokens may depend on the level the body leaves, which is the level it
found when it returns. -/
theorem finish_wrap (st : State) (pre : List Token) (dpre : Int) (mid : Emission)
    (post : Int → List Token) (dpost : Int) (r : Except (JsError × State) State)
    (hr : r = (st.emit pre dpre).finish mid)
    (hbal : mid.thrown = none → mid.delta = 0) :
    (r >>= fun s => pure (s.emit (post s.level) dpost)) =
      st.finish ((Emission.ok pre dpre).andThen
        (mid.andThen (Emission.ok (post (st.level + dpre)) dpost))) := by
  subst hr
  obtain ⟨ts, d, thrown⟩ := mid
  cases thrown with
  | none =>
    have hd : d = 0 := hbal rfl
    subst hd
    simp [State.finish, Emission.andThen, Emission.ok, State.emit, bind, Except.bind, pure,
      Except.pure, add_assoc]
  | some err =>
    simp [State.finish, Emission.andThen, Emission.ok, State.emit, bind, Except.bind,
      add_assoc]

theorem foldlM_attach_eq {α β : Type} (l : List α)
    (F : β → { x // x ∈ l } → Except (JsError × State) β)
    (G : β → α → Except (JsError × State) β) (h : ∀ b x hx, F b ⟨x, hx⟩ = G b x) (b : β) :
    l.attach.foldlM F b = l.foldlM G b := by
  have h1 : l.foldlM G b = (l.attach.map Subtype.val).foldlM G b := by
    rw [List.attach_map_subtype_val]
  rw [h1, List.foldlM_map]
  congr 1
  funext b x
  exact h b x.1 x.2

theorem Emission.seq_balanced (es : List Emission)
    (h : ∀ em ∈ es, em.thrown = none → em.delta = 0)
    (hok : (Emission.seq es).thrown = none) : (Emission.seq es).delta = 0 := by
  induction es with
  | nil => rfl
  | cons a rest ih =>
    have h1 := h a (List.mem_cons_self _ _)
    have h2 := ih (fun em hem => h em (List.mem_cons_of_mem _ hem))
    obtain ⟨ts, d, thrown⟩ := a
    cases thrown with
    | some err => simp [Emission.seq, Emission.andThen] at hok
    | none =>
      simp only [Emission.seq, Emission.andThen] at hok ⊢
      have h3 : d = 0 := h1 rfl
      rw [h3, h2 hok]
      rfl

theorem wrapOut_balanced (openT closeT : Token) (body : Emission)
    (h : body.thrown = none → body.delta = 0)
    (hok : (wrapOut openT body closeT).thrown = none) :
    (wrapOut openT body closeT).delta = 0 := by
  obtain ⟨ts, d, thrown⟩ := body
  cases thrown with
  | none =>
    have hd : d = 0 := h rfl
    subst hd
    simp [wrapOut, Emission.andThen, Emission.ok]
  | some err => simp [wrapOut, Emission.andThen, Emission.ok] at hok

/-- A loop whose body has an emission that depends on the level only, and
leaves the level as it found it when it returns, has the emission of the
bodies in sequence. -/
theorem foldlM_finish {α : Type} (step : State → α → Except (JsError × State) State)
    (g : α → Int → Emission) (xs : List α)
    (hstep : ∀ x ∈ xs, ∀ st, step st x = st.finish (g x st.level))
    (hbal : ∀ x ∈ xs, ∀ l, (g x l).thrown = none → (g x l).delta = 0)
    (st : State) :
    xs.foldlM step st = st.finish (Emission.seq (xs.map (fun x => g x st.level))) := by
  induction xs generalizing st with
  | nil => simp [Emission.seq, State.finish, Emission.ok, State.emit_nil_zero, pure,
      Except.pure]
  | cons x xs ih =>
    rw [List.foldlM_cons, hstep x (List.mem_cons_self _ _)]
    have hb := hbal x (List.mem_cons_self _ _) st.level
    simp only [List.map_cons, Emission.seq]
    cases hth : (g x st.level).thrown with
    | some err =>
      simp [State.finish, Emission.andThen, hth, bind, Except.bind]
    | none =>
      have hd := hb hth
      simp only [State.finish, hth, bind, Except.bind]
      rw [ih (fun y hy => hstep y (List.mem_cons_of_mem _ hy))
        (fun y hy => hbal y (List.mem_cons_of_mem _ hy))]
      simp only [State.emit_level, hd, add_zero, Emission.andThen, hth, State.finish]
      cases (Emission.seq (xs.map (fun x => g x st.level))).thrown <;>
        simp [State.emit_emit, hd]

/-- One unfolding of `createNestedTable` on a list, with the loop over the rows
written as a plain monadic fold. -/
theorem createNestedTable_arr (cfg : Config) (st : State) (items : List JsVal)
    (map : Option (Nat × Nat)) :
    createNestedTable cfg st (.arr items) map =
      if isPrimitiveArray (.arr items) then do
        let st := createToken st (cfg.name ++ "_nested_open") "table" 1 map
        let st := createToken st (cfg.name ++ "_tbody_open") "tbody" 1 map
        let st := createToken st (cfg.name ++ "_tr_open") "tr" 1 map
        let st ← items.foldlM (fun st item => do
          let st := createToken st (cfg.name ++ "_td_open") "td" 1 map
          let st ← pushInlineString st item map
          pure (createToken st (cfg.name ++ "_td_close") "td" (-1) none)) st
        let st := createToken st (cfg.name ++ "_tr_close") "tr" (-1) none
        let st := createToken st (cfg.name ++ "_tbody_close") "tbody" (-1) none
        pure (createToken st (cfg.name ++ "_nested_close") "table" (-1) none)
      else if isObjectArray (.arr items) then do
        let keys := ownKeys (firstItem items)
        let st := createToken st (cfg.name ++ "_nested_open") "table" 1 map
        let st := createToken st (cfg.name ++ "_thead_open") "thead" 1 map
        let st := createToken st (cfg.name ++ "_tr_open") "tr" 1 map
        let st := keys.foldl (fun st key =>
          let st := createToken st (cfg.name ++ "_th_open") "th" 1 map
          let st := pushInline st (.str key) map
          createToken st (cfg.name ++ "_th_close") "th" (-1) none) st
        let st := createToken st (cfg.name ++ "_tr_close") "tr" (-1) none
        let st := createToken st (cfg.name ++ "_thead_close") "thead" (-1) none
        let st := createToken st (cfg.name ++ "_tbody_open") "tbody" 1 map
        let st ← items.foldlM (fun st row => do
          let st := createToken st (cfg.name ++ "_tr_open") "tr" 1 map
          let st ← keys.foldlM (fun st key => do
            let st := createToken st (cfg.name ++ "_td_open") "td" 1 map
            let st ←
              if isArray (getProp row key) then createNestedTable cfg st (getProp row key) map
              else pushInlineString st (getProp row key) map
            pure (createToken st (cfg.name ++ "_td_close") "td" (-1) none)) st
          pure (createToken st (cfg.name ++ "_tr_close") "tr" (-1) none)) st
        let st := createToken st (cfg.name ++ "_tbody_close") "tbody" (-1) none
        pure (createToken st (cfg.name ++ "_nested_close") "table" (-1) none)
      else pure st := by
  rw [createNestedTable]
  split
  · rfl
  · split
    · simp only
      congr 1
      apply foldlM_attach_eq
      intro st row hrow
      simp only
      congr 2
      funext st key
      split <;> simp_all [isArray]
    · rfl

theorem stringLeafOut_balanced (level : Int) (value : JsVal) (map : Option (Nat × Nat)) :
    (stringLeafOut level value map).delta = 0 := by
  unfold stringLeafOut
  cases jsString value <;> rfl

/-- A data cell of a nested table: the open token, the value, the close token. -/
theorem nestedCell_finish (cfg : Config) (v : JsVal) (map : Option (Nat × Nat))
    (H : isArray v = true → ∀ st, createNestedTable cfg st v map =
      st.finish (nestedOut cfg st.level v map))
    (Hbal : isArray v = true → ∀ l, (nestedOut cfg l v map).thrown = none →
      (nestedOut cfg l v map).delta = 0)
    (st : State) :
    (do
      let st := createToken st (cfg.name ++ "_td_open") "td" 1 map
      let st ←
        if isArray v then createNestedTable cfg st v map
        else pushInlineString st v map
      pure (createToken st (cfg.name ++ "_td_close") "td" (-1) none)) =
    st.finish (wrapOut (openTok (cfg.name ++ "_td_open") "td" st.level map)
      (valueOut cfg (st.level + 1) v map)
      (closeTok (cfg.name ++ "_td_close") "td" st.level)) := by
  simp only [createToken_open, createToken_close]
  by_cases harr : isArray v = true
  · simp only [harr, if_true]
    rw [finish_wrap st [openTok (cfg.name ++ "_td_open") "td" st.level map] 1
      (nestedOut cfg (st.level + 1) v map)
      (fun l => [closeTok (cfg.name ++ "_td_close") "td" (l - 1)]) (-1) _
      (H harr _) (Hbal harr _)]
    simp [wrapOut, valueOut, harr]
  · simp only [harr, if_false]
    rw [finish_wrap st [openTok (cfg.name ++ "_td_open") "td" st.level map] 1
      (stringLeafOut (st.level + 1) v map)
      (fun l => [closeTok (cfg.name ++ "_td_close") "td" (l - 1)]) (-1) _
      (pushInlineString_eq _ _ _) (fun _ => stringLeafOut_balanced _ _ _)]
    simp [wrapOut, valueOut, harr]

/-- A pure loop whose body appends tokens that depend only on the level, and
leaves the level as it found it, appends the concatenation of the bodies'
tokens. -/
theorem foldl_emit {α : Type} (step : State → α → State) (g : α → Int → List Token)
    (xs : List α) (hstep : ∀ x ∈ xs, ∀ st, step st x = st.emit (g x st.level) 0)
    (st : State) :
    xs.foldl step st = st.emit (xs.flatMap (fun x => g x st.level)) 0 := by
  induction xs generalizing st with
  | nil => simp [State.emit_nil_zero]
  | cons x xs ih =>
    rw [List.foldl_cons, hstep x (List.mem_cons_self _ _),
      ih (fun y hy => hstep y (List.mem_cons_of_mem _ hy))]
    simp [State.emit_emit]

/-- The same as `finish_wrap`, the suffix given as a function of the state. -/
theorem finish_wrapK (st : State) (pre : List Token) (dpre : Int) (mid : Emission)
    (post : Int → List Token) (dpost : Int) (r : Except (JsError × State) State)
    (k : State → State)
    (hr : r = (st.emit pre dpre).finish mid)
    (hbal : mid.thrown = none → mid.delta = 0)
    (hk : ∀ s, k s = s.emit (post s.level) dpost) :
    (r >>= fun s => pure (k s)) =
      st.finish ((Emission.ok pre dpre).andThen
        (mid.andThen (Emission.ok (post (st.level + dpre)) dpost))) := by
  have hfun : (fun s => (pure (k s) : Except (JsError × State) State)) =
      fun s => pure (s.emit (post s.level) dpost) := by
    funext s
    rw [hk]
  rw [hfun]
  exact finish_wrap st pre dpre mid post dpost r hr hbal

/-- A cell of the single row of a list of scalars. -/
theorem primitiveCell_finish (cfg : Config) (item : JsVal) (map : Option (Nat × Nat))
    (st : State) :
    (do
      let st := createToken st (cfg.name ++ "_td_open") "td" 1 map
      let st ← pushInlineString st item map
      pure (createToken st (cfg.name ++ "_td_close") "td" (-1) none)) =
    st.finish (wrapOut (openTok (cfg.name ++ "_td_open") "td" st.level map)
      (stringLeafOut (st.level + 1) item map)
      (closeTok (cfg.name ++ "_td_close") "td" st.level)) := by
  simp only [createToken_open, createToken_close]
  rw [finish_wrap st [openTok (cfg.name ++ "_td_open") "td" st.level map] 1
    (stringLeafOut (st.level + 1) item map)
    (fun l => [closeTok (cfg.name ++ "_td_close") "td" (l - 1)]) (-1) _
    (pushInlineString_eq _ _ _) (fun _ => stringLeafOut_balanced _ _ _)]
  simp [wrapOut]

theorem valueOut_balanced (cfg : Config) (level : Int) (v : JsVal) (map : Option (Nat × Nat))
    (Hbal : isArray v = true → ∀ l, (nestedOut cfg l v map).thrown = none →
      (nestedOut cfg l v map).delta = 0)
    (hok : (valueOut cfg level v map).thrown = none) :
    (valueOut cfg level v map).delta = 0 := by
  unfold valueOut at hok ⊢
  split
  · rename_i harr
    rw [if_pos harr] at hok
    exact Hbal harr _ hok
  · exact stringLeafOut_balanced _ _ _

/-- One level of the nested-table rule, given that the nested tables of the
record fields have the emission `nestedOut` names. -/
theorem createNestedTable_step (cfg : Config) (items : List JsVal)
    (map : Option (Nat × Nat))
    (H : ∀ row ∈ items, ∀ key, isArray (getProp row key) = true → ∀ st,
      createNestedTable cfg st (getProp row key) map =
        st.finish (nestedOut cfg st.level (getProp row key) map))
    (Hbal : ∀ row ∈ items, ∀ key, isArray (getProp row key) = true → ∀ l,
      (nestedOut cfg l (getProp row key) map).thrown = none →
      (nestedOut cfg l (getProp row key) map).delta = 0)
    (st : State) :
    createNestedTable cfg st (.arr items) map =
      st.finish
        (if isPrimitiveArray (.arr items) then primitiveOut cfg st.level items map
         else if isObjectArray (.arr items) then recordOut cfg st.level items map
         else Emission.ok [] 0) := by
  rw [createNestedTable_arr]
  by_cases hp : isPrimitiveArray (.arr items) = true
  · simp only [hp, if_true]
    refine (finish_wrapK st
      [openTok (cfg.name ++ "_nested_open") "table" st.level map,
       openTok (cfg.name ++ "_tbody_open") "tbody" (st.level + 1) map,
       openTok (cfg.name ++ "_tr_open") "tr" (st.level + 2) map] 3
      (Emission.seq (items.map (fun item =>
        wrapOut (openTok (cfg.name ++ "_td_open") "td" (st.level + 3) map)
          (stringLeafOut (st.level + 3 + 1) item map)
          (closeTok (cfg.name ++ "_td_close") "td" (st.level + 3)))))
      (fun l =>
        [closeTok (cfg.name ++ "_tr_close") "tr" (l - 1),
         closeTok (cfg.name ++ "_tbody_close") "tbody" (l - 2),
         closeTok (cfg.name ++ "_nested_close") "table" (l - 3)]) (-3) _ _ ?_ ?_ ?_).trans ?_
    · refine (foldlM_finish _ (fun item l =>
        wrapOut (openTok (cfg.name ++ "_td_open") "td" l map)
          (stringLeafOut (l + 1) item map)
          (closeTok (cfg.name ++ "_td_close") "td" l)) items ?_ ?_ _).trans ?_
      · intro x _ s
        exact primitiveCell_finish cfg x map s
      · intro x _ l
        exact wrapOut_balanced _ _ _ (fun _ => stringLeafOut_balanced _ _ _)
      · simp only [createToken_open, State.emit_emit, State.emit_level]
        norm_num
    · apply Emission.seq_balanced
      intro em hem
      simp only [List.mem_map] at hem
      obtain ⟨x, _, rfl⟩ := hem
      exact wrapOut_balanced _ _ _ (fun _ => stringLeafOut_balanced _ _ _)
    · intro s
      simp only [createToken_close, State.emit_emit, State.emit_level]
      apply State.emit_congr
      · simp [add_sub_assoc]
        exact ⟨rfl, rfl⟩
      · norm_num
    · have e1 : st.level + 3 - 1 = st.level + 2 := by ring
      have e2 : st.level + 3 - 2 = st.level + 1 := by ring
      simp [primitiveOut, add_assoc, e1, e2]
  · simp only [hp, Bool.false_eq_true, if_false]
    by_cases ho : isObjectArray (.arr items) = true
    · simp only [ho, if_true]
      refine (finish_wrapK st
        ([openTok (cfg.name ++ "_nested_open") "table" st.level map,
          openTok (cfg.name ++ "_thead_open") "thead" (st.level + 1) map,
          openTok (cfg.name ++ "_tr_open") "tr" (st.level + 2) map] ++
         (ownKeys (firstItem items)).flatMap (fun key =>
          [openTok (cfg.name ++ "_th_open") "th" (st.level + 3) map,
           inlineTok (.str key) (st.level + 4) map,
           closeTok (cfg.name ++ "_th_close") "th" (st.level + 3)]) ++
         [closeTok (cfg.name ++ "_tr_close") "tr" (st.level + 2),
          closeTok (cfg.name ++ "_thead_close") "thead" (st.level + 1),
          openTok (cfg.name ++ "_tbody_open") "tbody" (st.level + 1) map]) 2
        (Emission.seq (items.map (fun row =>
          wrapOut (openTok (cfg.name ++ "_tr_open") "tr" (st.level + 2) map)
            (Emission.seq ((ownKeys (firstItem items)).map (fun key =>
              wrapOut (openTok (cfg.name ++ "_td_open") "td" (st.level + 2 + 1) map)
                (valueOut cfg (st.level + 2 + 1 + 1) (getProp row key) map)
                (closeTok (cfg.name ++ "_td_close") "td" (st.level + 2 + 1)))))
            (closeTok (cfg.name ++ "_tr_close") "tr" (st.level + 2)))))
        (fun l =>
          [closeTok (cfg.name ++ "_tbody_close") "tbody" (l - 1),
           closeTok (cfg.name ++ "_nested_close") "table" (l - 2)]) (-2) _ _ ?_ ?_ ?_).trans ?_
      · refine (foldlM_finish _ (fun row l =>
          wrapOut (openTok (cfg.name ++ "_tr_open") "tr" l map)
            (Emission.seq ((ownKeys (firstItem items)).map (fun key =>
              wrapOut (openTok (cfg.name ++ "_td_open") "td" (l + 1) map)
                (valueOut cfg (l + 1 + 1) (getProp row key) map)
                (closeTok (cfg.name ++ "_td_close") "td" (l + 1)))))
            (closeTok (cfg.name ++ "_tr_close") "tr" l)) items ?_ ?_ _).trans ?_
        · intro row hrow s
          simp only []
          refine (finish_wrapK s [openTok (cfg.name ++ "_tr_open") "tr" s.level map] 1
            (Emission.seq ((ownKeys (firstItem items)).map (fun key =>
              wrapOut (openTok (cfg.name ++ "_td_open") "td" (s.level + 1) map)
                (valueOut cfg (s.level + 1 + 1) (getProp row key) map)
                (closeTok (cfg.name ++ "_td_close") "td" (s.level + 1)))))
            (fun l => [closeTok (cfg.name ++ "_tr_close") "tr" (l - 1)]) (-1) _ _
            ?_ ?_ ?_).trans ?_
          · refine (foldlM_finish _ (fun key l =>
              wrapOut (openTok (cfg.name ++ "_td_open") "td" l map)
                (valueOut cfg (l + 1) (getProp row key) map)
                (closeTok (cfg.name ++ "_td_close") "td" l))
              (ownKeys (firstItem items)) ?_ ?_ _).trans ?_
            · intro key _ s2
              exact nestedCell_finish cfg (getProp row key) map (H row hrow key)
                (Hbal row hrow key) s2
            · intro key _ l
              exact wrapOut_balanced _ _ _ (valueOut_balanced cfg _ _ map (Hbal row hrow key))
            · rw [createToken_open]
              rfl
          · apply Emission.seq_balanced
            intro em hem
            simp only [List.mem_map] at hem
            obtain ⟨key, _, rfl⟩ := hem
            exact wrapOut_balanced _ _ _ (valueOut_balanced cfg _ _ map (Hbal row hrow key))
          · intro s2
            rw [createToken_close]
          · simp [wrapOut]
        · intro row hrow l
          apply wrapOut_balanced
          apply Emission.seq_balanced
          intro em hem
          simp only [List.mem_map] at hem
          obtain ⟨key, _, rfl⟩ := hem
          exact wrapOut_balanced _ _ _ (valueOut_balanced cfg _ _ map (Hbal row hrow key))
        · rw [foldl_emit _ (fun key l =>
            [openTok (cfg.name ++ "_th_open") "th" l map,
             inlineTok (.str key) (l + 1) map,
             closeTok (cfg.name ++ "_th_close") "th" l]) (ownKeys (firstItem items))]
          · simp only [createToken_open, createToken_close, State.emit_emit, State.emit_level]
            have e1 : st.level + 3 - 1 = st.level + 2 := by ring
            have e2 : st.level + 2 - 1 = st.level + 1 := by ring
            norm_num [add_assoc, e1, e2]
          · intro key _ s
            simp only [createToken_open, pushInline_eq, createToken_close, State.emit_emit,
              State.emit_level]
            apply State.emit_congr
            · simp [add_assoc, add_sub_assoc]
            · norm_num
      · apply Emission.seq_balanced
        intro em hem
        simp only [List.mem_map] at hem
        obtain ⟨row, hrow, rfl⟩ := hem
        apply wrapOut_balanced
        apply Emission.seq_balanced
        intro em hem
        simp only [List.mem_map] at hem
        obtain ⟨key, _, rfl⟩ := hem
        exact wrapOut_balanced _ _ _ (valueOut_balanced cfg _ _ map (Hbal row hrow key))
      · intro s
        simp only [createToken_close, State.emit_emit, State.emit_level]
        apply State.emit_congr
        · simp [add_sub_assoc]
          rfl
        · norm_num
      · have e1 : st.level + 2 - 1 = st.level + 1 := by ring
        have e2 : st.level + 2 - 2 = st.level := by ring
        simp [recordOut, add_assoc, e1, e2]
    · simp only [ho, Bool.false_eq_true, if_false]
      rw [State.finish_ok, State.emit_nil_zero]
      rfl

theorem createNestedTable_not_arr (cfg : Config) (st : State) (data : JsVal)
    (map : Option (Nat × Nat)) (h : isArray data = false) :
    createNestedTable cfg st data map = .ok st := by
  cases data with
  | arr items => simp [isArray] at h
  | _ => rw [createNestedTable] <;> first | rfl | (intro items hi; cases hi)

/-- Induction over the values the nested-table recursion visits: a property
that holds for every value that is not a list, and for a list as soon as it
holds for the list-valued fields of its elements, holds for every value. -/
theorem nested_induction (P : JsVal → Prop)
    (hnot : ∀ v, isArray v = false → P v)
    (harr : ∀ items : List JsVal,
      (∀ row ∈ items, ∀ key, isArray (getProp row key) = true → P (getProp row key)) →
      P (.arr items)) :
    ∀ v, P v := by
  suffices hmain : ∀ n : Nat, ∀ v : JsVal, sizeOf v = n → P v from fun v => hmain _ v rfl
  intro n
  induction n using Nat.strong_induction_on with
  | _ n ih =>
    intro v hn
    by_cases hv : isArray v = false
    · exact hnot v hv
    cases v with
    | arr items =>
      apply harr
      intro row hrow key hkey
      cases hg : getProp row key with
      | arr sub =>
        have h1 := sizeOf_getProp_arr_lt row key sub hg
        have h2 := List.sizeOf_lt_of_mem hrow
        refine ih (sizeOf (JsVal.arr sub)) ?_ (JsVal.arr sub) rfl
        subst hn
        simp at h1 ⊢
        omega
      | _ => simp [hg, isArray] at hkey
    | _ => simp [isArray] at hv

/-- Reading the emission back from the outcome of a run from a blank state. -/
theorem emission_of_finish (level : Int) (em : Emission) :
    (match (State.blank level).finish em with
      | .ok st => ({ tokens := st.tokens, delta := st.level - level, thrown := none } : Emission)
      | .error (err, st) =>
        { tokens := st.tokens, delta := st.level - level, thrown := some err }) = em := by
  obtain ⟨ts, d, thrown⟩ := em
  cases thrown <;> simp [State.finish, State.blank, State.emit]

theorem andThen_balanced (pre post : List Token) (dpre dpost : Int) (mid : Emission)
    (h : mid.thrown = none → mid.delta = 0) (hsum : dpre + dpost = 0)
    (hok : ((Emission.ok pre dpre).andThen
      (mid.andThen (Emission.ok post dpost))).thrown = none) :
    ((Emission.ok pre dpre).andThen (mid.andThen (Emission.ok post dpost))).delta = 0 := by
  obtain ⟨ts, d, thrown⟩ := mid
  cases thrown with
  | none =>
    have hd : d = 0 := h rfl
    subst hd
    simpa [Emission.andThen, Emission.ok] using hsum
  | some err => simp [Emission.andThen, Emission.ok] at hok

/-- The frame property of the nested-table builder: whatever the state, the
run appends the tokens `nestedOut` names, which depend on the state through
its nesting level only, returns or throws as `nestedOut` says, and leaves
every other field alone; when it returns, the level is as it found it. -/
theorem createNestedTable_frame (cfg : Config) (map : Option (Nat × Nat)) (data : JsVal) :
    (∀ st : State, createNestedTable cfg st data map =
      st.finish (nestedOut cfg st.level data map)) ∧
    (∀ l : Int, (nestedOut cfg l data map).thrown = none →
      (nestedOut cfg l data map).delta = 0) := by
  induction data using nested_induction with
  | hnot v hv =>
    have h0 : ∀ l, nestedOut cfg l v map = Emission.ok [] 0 := by
      intro l
      unfold nestedOut
      rw [createNestedTable_not_arr cfg _ v map hv]
      simp [State.blank, Emission.ok]
    refine ⟨fun st => ?_, fun l _ => ?_⟩
    · rw [createNestedTable_not_arr cfg st v map hv, h0, State.finish_ok,
        State.emit_nil_zero]
    · rw [h0]
      rfl
  | harr items ih =>
    have hstep := createNestedTable_step cfg items map
      (fun row hrow key hkey => (ih row hrow key hkey).1)
      (fun row hrow key hkey => (ih row hrow key hkey).2)
    have htok : ∀ l, nestedOut cfg l (.arr items) map =
        (if isPrimitiveArray (.arr items) then primitiveOut cfg l items map
         else if isObjectArray (.arr items) then recordOut cfg l items map
         else Emission.ok [] 0) := by
      intro l
      unfold nestedOut
      rw [hstep]
      exact emission_of_finish l _
    refine ⟨fun st => ?_, fun l => ?_⟩
    · rw [htok, hstep]
    · rw [htok]
      split
      · apply andThen_balanced _ _ _ _ _ _ (by norm_num)
        apply Emission.seq_balanced
        intro em hem
        simp only [List.mem_map] at hem
        obtain ⟨x, _, rfl⟩ := hem
        exact wrapOut_balanced _ _ _ (fun _ => stringLeafOut_balanced _ _ _)
      · split
        · apply andThen_balanced _ _ _ _ _ _ (by norm_num)
          apply Emission.seq_balanced
          intro em hem
          simp only [List.mem_map] at hem
          obtain ⟨row, hrow, rfl⟩ := hem
          apply wrapOut_balanced
          apply Emission.seq_balanced
          intro em hem
          simp only [List.mem_map] at hem
          obtain ⟨key, _, rfl⟩ := hem
          exact wrapOut_balanced _ _ _
            (valueOut_balanced cfg _ _ map (fun hkey => (ih row hrow key hkey).2))
        · intro _
          rfl

theorem createNestedTable_finish (cfg : Config) (st : State) (data : JsVal)
    (map : Option (Nat × Nat)) :
    createNestedTable cfg st data map = st.finish (nestedOut cfg st.level data map) :=
  (createNestedTable_frame cfg map data).1 st

theorem nestedOut_balanced (cfg : Config) (level : Int) (data : JsVal)
    (map : Option (Nat × Nat)) (hok : (nestedOut cfg level data map).thrown = none) :
    (nestedOut cfg level data map).delta = 0 :=
  (createNestedTable_frame cfg map data).2 level hok

/-- The nested-table rule as an equation on the emission. -/
theorem nestedOut_arr (cfg : Config) (level : Int) (items : List JsVal)
    (map : Option (Nat × Nat)) :
    nestedOut cfg level (.arr items) map =
      if isPrimitiveArray (.arr items) then primitiveOut cfg level items map
      else if isObjectArray (.arr items) then recordOut cfg level items map
      else Emission.ok [] 0 := by
  have hstep := createNestedTable_step cfg items map
    (fun row _ key _ st => createNestedTable_finish cfg st (getProp row key) map)
    (fun row _ key _ l => nestedOut_balanced cfg l (getProp row key) map)
    (State.blank level)
  unfold nestedOut
  rw [hstep]
  exact emission_of_finish level _

theorem nestedOut_not_arr (cfg : Config) (level : Int) (v : JsVal)
    (map : Option (Nat × Nat)) (h : isArray v = false) :
    nestedOut cfg level v map = Emission.ok [] 0 := by
  unfold nestedOut
  rw [createNestedTable_not_arr cfg _ v map h]
  simp [State.blank, Emission.ok]

/-! ## Cells, rows and the two layouts -/

theorem cellName_th_open (n : String) : n ++ "_" ++ "th" ++ "_open" = n ++ "_th_open" := by
  rw [String.append_assoc, String.append_assoc]; rfl

theorem cellName_th_close (n : String) : n ++ "_" ++ "th" ++ "_close" = n ++ "_th_close" := by
  rw [String.append_assoc, String.append_assoc]; rfl

/-- What `createCell` does: the open token, the body, the close token. -/
theorem createCell_finish (cfg : Config) (st : State) (cellType : String) (content : JsVal)
    (map : Option (Nat × Nat)) :
    createCell cfg st cellType content map =
      st.finish (cellOut cfg st.level cellType content map) := by
  unfold createCell
  simp only [createToken_open, createToken_close]
  by_cases harr : isArray content = true
  · simp only [harr, if_true]
    rw [finish_wrap st [openTok (cfg.name ++ "_" ++ cellType ++ "_open") cellType st.level map]
      1 (nestedOut cfg (st.level + 1) content map)
      (fun l => [closeTok (cfg.name ++ "_" ++ cellType ++ "_close") cellType (l - 1)]) (-1) _
      (createNestedTable_finish _ _ _ _) (nestedOut_balanced _ _ _ _)]
    simp [cellOut, wrapOut, harr]
  · simp only [harr, if_false]
    rw [pushInline_eq]
    simp [State.finish, Emission.andThen, Emission.ok, State.emit_emit, cellOut, wrapOut, harr,
      pure, Except.pure, bind, Except.bind]

theorem cellOut_balanced (cfg : Config) (level : Int) (cellType : String) (content : JsVal)
    (map : Option (Nat × Nat)) (hok : (cellOut cfg level cellType content map).thrown = none) :
    (cellOut cfg level cellType content map).delta = 0 := by
  refine wrapOut_balanced _ _ _ ?_ hok
  split
  · exact nestedOut_balanced _ _ _ _
  · intro _
    rfl

theorem rowCellOut_balanced (cfg : Config) (level : Int) (data : JsVal) (cellType : String)
    (map : Option (Nat × Nat)) (key : String)
    (hok : (rowCellOut cfg level data cellType map key).thrown = none) :
    (rowCellOut cfg level data cellType map key).delta = 0 := by
  unfold rowCellOut at hok ⊢
  split
  · rename_i harr
    rw [if_pos harr] at hok
    exact cellOut_balanced _ _ _ _ _ hok
  · rename_i harr
    rw [if_neg harr] at hok
    cases hs : jsString (getProp data key) with
    | error err => rfl
    | ok text =>
      rw [hs] at hok
      exact cellOut_balanced _ _ _ _ _ hok

/-- What `createRow` does: a tr around the rounds of its loop. -/
theorem createRow_finish (cfg : Config) (st : State) (keys : List String) (data : JsVal)
    (cellType : String) (map : Option (Nat × Nat)) :
    createRow cfg st keys data cellType map =
      st.finish (rowOut cfg st.level keys data cellType map) := by
  unfold createRow
  simp only []
  refine (finish_wrapK st [openTok (cfg.name ++ "_tr_open") "tr" st.level map] 1
    (Emission.seq (keys.map (rowCellOut cfg (st.level + 1) data cellType map)))
    (fun l => [closeTok (cfg.name ++ "_tr_close") "tr" (l - 1)]) (-1) _ _ ?_ ?_ ?_).trans ?_
  · refine (foldlM_finish _ (fun key l => rowCellOut cfg l data cellType map key)
      keys ?_ ?_ _).trans ?_
    · intro key _ s
      simp only []
      unfold rowCellOut
      by_cases harr : isArray (getProp data key) = true
      · simp only [harr, if_true]
        exact createCell_finish _ _ _ _ _
      · simp only [harr, if_false]
        cases hs : jsString (getProp data key) with
        | error err =>
          simp only [Bool.false_eq_true, if_false, State.finish, State.emit_nil_zero]
          rfl
        | ok text =>
          simp only [Bool.false_eq_true, if_false, pure_bind]
          exact createCell_finish _ _ _ _ _
    · intro key _ l
      exact rowCellOut_balanced _ _ _ _ _ _
    · rw [createToken_open]
      rfl
  · apply Emission.seq_balanced
    intro em hem
    simp only [List.mem_map] at hem
    obtain ⟨key, _, rfl⟩ := hem
    exact rowCellOut_balanced _ _ _ _ _ _
  · intro s
    rw [createToken_close]
  · simp [rowOut, wrapOut]

theorem cellOut_str (cfg : Config) (level : Int) (cellType : String) (text : String)
    (map : Option (Nat × Nat)) :
    cellOut cfg level cellType (.str text) map =
      Emission.ok
        [openTok (cfg.name ++ "_" ++ cellType ++ "_open") cellType level map,
         inlineTok (.str text) (level + 1) map,
         closeTok (cfg.name ++ "_" ++ cellType ++ "_close") cellType level] 0 := by
  simp [cellOut, wrapOut, isArray, Emission.andThen, Emission.ok]

theorem Emission.seq_ok {α : Type} (xs : List α) (g : α → List Token) :
    Emission.seq (xs.map (fun x => Emission.ok (g x) 0)) = Emission.ok (xs.flatMap g) 0 := by
  induction xs with
  | nil => rfl
  | cons x xs ih =>
    simp only [List.map_cons, Emission.seq, ih, List.flatMap_cons]
    simp [Emission.andThen, Emission.ok]

theorem getProp_headerData (keys : List String) (key : String) (h : key ∈ keys) :
    getProp (headerData keys) key = .str key := by
  have hl : (keys.map (fun k => (k, JsVal.str k))).lookup key = some (.str key) := by
    induction keys with
    | nil => simp at h
    | cons k ks ih =>
      simp only [List.map_cons, List.lookup]
      by_cases hk : key = k
      · subst hk; simp
      · have hne : (key == k) = false := by simpa using hk
        rw [hne]
        simp only
        exact ih (by simpa [hk] using h)
  unfold getProp headerData ownEntries
  rw [hl]

theorem objectKeys_of_truthy (v : JsVal) (h : truthy v = true) :
    objectKeys v = .ok (ownKeys v) := by
  cases v <;> first | rfl | simp [truthy] at h

theorem State.emit_one_setLast (st : State) (t : Token) (d : Int) (f : Token → Token) :
    (st.emit [t] d).setLast f = st.emit [f t] d := by
  simp [State.emit, State.setLast, List.modifyLast_append_one]

theorem State.emit_snoc_setLast (st : State) (ts : List Token) (t : Token) (d : Int)
    (f : Token → Token) :
    (st.emit (ts ++ [t]) d).setLast f = st.emit (ts ++ [f t]) d := by
  simp only [State.emit, State.setLast, ← List.append_assoc, List.modifyLast_append_one]

/-- The header row of the horizontal layout never throws: one th cell per key,
holding the key itself. -/
theorem createRow_header (cfg : Config) (st : State) (keys : List String)
    (map : Option (Nat × Nat)) :
    createRow cfg st keys (headerData keys) "th" map =
      .ok (st.emit ([openTok (cfg.name ++ "_tr_open") "tr" st.level map] ++
        keys.flatMap (fun key =>
          [openTok (cfg.name ++ "_th_open") "th" (st.level + 1) map,
           inlineTok (.str key) (st.level + 2) map,
           closeTok (cfg.name ++ "_th_close") "th" (st.level + 1)]) ++
        [closeTok (cfg.name ++ "_tr_close") "tr" st.level]) 0) := by
  rw [createRow_finish]
  have hcells : keys.map (rowCellOut cfg (st.level + 1) (headerData keys) "th" map) =
      keys.map (fun key => Emission.ok
        [openTok (cfg.name ++ "_th_open") "th" (st.level + 1) map,
         inlineTok (.str key) (st.level + 2) map,
         closeTok (cfg.name ++ "_th_close") "th" (st.level + 1)] 0) := by
    apply List.map_congr_left
    intro key hkey
    unfold rowCellOut
    rw [getProp_headerData _ _ hkey]
    simp [isArray, jsString, cellOut_str, cellName_th_open, cellName_th_close, add_assoc]
  unfold rowOut
  rw [hcells, Emission.seq_ok]
  simp [wrapOut, Emission.andThen, Emission.ok, State.finish]

theorem layoutOut_balanced (cfg : Config) (level : Int) (v : JsVal)
    (map : Option (Nat × Nat)) (vertical : Bool)
    (hok : (layoutOut cfg level v map vertical).thrown = none) :
    (layoutOut cfg level v map vertical).delta = 0 := by
  unfold layoutOut at hok ⊢
  cases vertical with
  | true =>
    refine andThen_balanced _ _ _ _ _ ?_ (by norm_num) hok
    apply Emission.seq_balanced
    intro em hem
    simp only [List.mem_map] at hem
    obtain ⟨key, _, rfl⟩ := hem
    exact andThen_balanced _ _ _ _ _ (cellOut_balanced _ _ _ _ _) (by norm_num)
  | false =>
    refine andThen_balanced _ _ _ _ _ ?_ (by norm_num) hok
    unfold rowOut
    apply wrapOut_balanced
    apply Emission.seq_balanced
    intro em hem
    simp only [List.mem_map] at hem
    obtain ⟨key, _, rfl⟩ := hem
    exact rowCellOut_balanced _ _ _ _ _ _

theorem Except.ok_bind {ε α β : Type} (x : α) (f : α → Except ε β) :
    (Except.ok x >>= f) = f x := rfl

/-- The top-level run: the state with `parentType` and `lineMax` overwritten,
a pure prefix, a body that may throw, a pure suffix, and the restoring
epilogue, which an exception skips. -/
theorem top_finish (cfg : Config) (st : State) (e : Nat) (pre : List Token) (mid : Emission)
    (post : Int → List Token) (r : Except (JsError × State) State)
    (K : State → Bool × State)
    (hr : r = (State.emit { st with parentType := cfg.name, lineMax := e } pre 2).finish mid)
    (hbal : mid.thrown = none → mid.delta = 0)
    (hK : ∀ s, K s = (true, { s.emit (post s.level) (-2) with
      parentType := st.parentType, lineMax := st.lineMax, line := e + 1 })) :
    (r >>= fun s => pure (K s)) =
      st.outcome cfg e ((Emission.ok pre 2).andThen
        (mid.andThen (Emission.ok (post (st.level + 2)) (-2)))) := by
  subst hr
  obtain ⟨ts, d, thrown⟩ := mid
  cases thrown with
  | none =>
    have hd : d = 0 := hbal rfl
    subst hd
    simp [State.finish, State.outcome, Emission.andThen, Emission.ok, State.emit, bind,
      Except.bind, pure, Except.pure, hK]
  | some err =>
    simp [State.finish, State.outcome, Emission.andThen, Emission.ok, State.emit, bind,
      Except.bind, add_assoc]

theorem pushTokensToState_nullish (cfg : Config) (st : State) (s e : Nat) (v : JsVal)
    (vertical : Bool) (err : JsError) (hv : objectKeys v = .error err) :
    pushTokensToState cfg st s e v vertical = .error (err, st) := by
  unfold pushTokensToState
  rw [hv]

/-- What `pushTokensToState` does for a value `Object.keys` accepts: the
outcome of the emission of the chosen layout. -/
theorem pushTokensToState_eq (cfg : Config) (st : State) (s e : Nat) (v : JsVal)
    (vertical : Bool) (hv : objectKeys v = .ok (ownKeys v)) :
    pushTokensToState cfg st s e v vertical =
      st.outcome cfg e (layoutOut cfg st.level v (some (s, e)) vertical) := by
  unfold pushTokensToState
  rw [hv]
  simp only
  cases vertical with
  | true =>
    simp only [if_true, pure_bind]
    refine (top_finish cfg st e
      [tableOpenTok cfg st.level (some (s, e)) true,
       openTok (cfg.name ++ "_tbody_open") "tbody" (st.level + 1) (some (s, e))]
      (Emission.seq ((ownKeys v).map (fun key =>
        (Emission.ok
          [openTok (cfg.name ++ "_tr_open") "tr" (st.level + 2) (some (s, e)),
           openTok (cfg.name ++ "_th_open") "th" (st.level + 2 + 1) (some (s, e)),
           inlineTok (.str key) (st.level + 2 + 1 + 1) (some (s, e)),
           closeTok (cfg.name ++ "_th_close") "th" (st.level + 2 + 1)] 1).andThen
        ((cellOut cfg (st.level + 2 + 1) "td" (getProp v key) (some (s, e))).andThen
         (Emission.ok [closeTok (cfg.name ++ "_tr_close") "tr" (st.level + 2 + 1 - 1)]
          (-1))))))
      (fun l => [closeTok (cfg.name ++ "_tbody_close") "tbody" (l - 1),
        tableCloseTok cfg (l - 2)]) _ _ ?_ ?_ ?_).trans ?_
    · refine (foldlM_finish _ (fun key l =>
        (Emission.ok
          [openTok (cfg.name ++ "_tr_open") "tr" l (some (s, e)),
           openTok (cfg.name ++ "_th_open") "th" (l + 1) (some (s, e)),
           inlineTok (.str key) (l + 1 + 1) (some (s, e)),
           closeTok (cfg.name ++ "_th_close") "th" (l + 1)] 1).andThen
        ((cellOut cfg (l + 1) "td" (getProp v key) (some (s, e))).andThen
         (Emission.ok [closeTok (cfg.name ++ "_tr_close") "tr" (l + 1 - 1)] (-1))))
        (ownKeys v) ?_ ?_ _).trans ?_
      · intro key _ s1
        simp only []
        rw [createCell_finish, cellOut_str, State.finish_ok]
        simp only [Except.ok_bind, createToken_open, State.emit_emit, State.emit_level,
          cellName_th_open, cellName_th_close, List.singleton_append, List.cons_append,
          List.nil_append]
        refine (finish_wrapK s1 _ _ _
          (fun l => [closeTok (cfg.name ++ "_tr_close") "tr" (l - 1)]) (-1) _ _
          (createCell_finish _ _ _ _ _) (cellOut_balanced _ _ _ _ _) ?_).trans ?_
        · intro s2
          rw [createToken_close]
        · simp
      · intro key _ l
        exact andThen_balanced _ _ _ _ _ (cellOut_balanced _ _ _ _ _) (by norm_num)
      · simp only [createToken_open, State.emit_one_setLast, State.emit_emit,
          State.emit_level]
        have e2 : (1 : Int) + 1 = 2 := by norm_num
        rw [e2]
        rfl
    · apply Emission.seq_balanced
      intro em hem
      simp only [List.mem_map] at hem
      obtain ⟨key, _, rfl⟩ := hem
      exact andThen_balanced _ _ _ _ _ (cellOut_balanced _ _ _ _ _) (by norm_num)
    · intro s1
      simp only [createToken_close, State.emit_emit, State.emit_level, State.emit_snoc_setLast]
      have e1 : s1.level + -1 - 1 = s1.level - 2 := by ring
      simp [State.emit, tableCloseTok, closeTok, e1]
    · have e1 : st.level + 2 - 1 = st.level + 1 := by ring
      have e2 : st.level + 2 - 2 = st.level := by ring
      have e3 : st.level + 3 - 1 = st.level + 2 := by ring
      simp [layoutOut, verticalOut, add_assoc, e1, e2, e3]
  | false =>
    simp only [Bool.false_eq_true, if_false, createRow_header, Except.ok_bind, pure_bind]
    refine (top_finish cfg st e
      ([tableOpenTok cfg st.level (some (s, e)) false,
        openTok (cfg.name ++ "_thead_open") "thead" (st.level + 1) (some (s, e)),
        openTok (cfg.name ++ "_tr_open") "tr" (st.level + 2) (some (s, e))] ++
       (ownKeys v).flatMap (fun key =>
        [openTok (cfg.name ++ "_th_open") "th" (st.level + 3) (some (s, e)),
         inlineTok (.str key) (st.level + 4) (some (s, e)),
         closeTok (cfg.name ++ "_th_close") "th" (st.level + 3)]) ++
       [closeTok (cfg.name ++ "_tr_close") "tr" (st.level + 2),
        closeTok (cfg.name ++ "_thead_close") "thead" (st.level + 1),
        openTok (cfg.name ++ "_tbody_open") "tbody" (st.level + 1) (some (s, e))])
      (rowOut cfg (st.level + 2) (ownKeys v) v "td" (some (s, e)))
      (fun l => [closeTok (cfg.name ++ "_tbody_close") "tbody" (l - 1),
        tableCloseTok cfg (l - 2)]) _ _ ?_ ?_ ?_).trans ?_
    · rw [createRow_finish]
      simp only [createToken_open, createToken_close, State.emit_one_setLast, State.emit_emit,
        State.emit_level]
      have e1 : st.level + (1 + 1 + 0) - 1 = st.level + 1 := by ring
      rw [e1]
      norm_num [add_assoc]
      rfl
    · unfold rowOut
      apply wrapOut_balanced
      apply Emission.seq_balanced
      intro em hem
      simp only [List.mem_map] at hem
      obtain ⟨key, _, rfl⟩ := hem
      exact rowCellOut_balanced _ _ _ _ _ _
    · intro s1
      simp only [createToken_close, State.emit_emit, State.emit_level, State.emit_snoc_setLast]
      have e1 : s1.level + -1 - 1 = s1.level - 2 := by ring
      simp [State.emit, tableCloseTok, closeTok, e1]
    · have e1 : st.level + 2 - 1 = st.level + 1 := by ring
      have e2 : st.level + 2 - 2 = st.level := by ring
      simp [layoutOut, horizontalOut, add_assoc, e1, e2]

/-! ## The two kinds of list -/

theorem isPrimitiveArray_of_scalars (items : List JsVal) (hne : items ≠ [])
    (hsc : ∀ x ∈ items, isScalar x = true) : isPrimitiveArray (.arr items) = true := by
  simp only [isPrimitiveArray, Bool.and_eq_true, decide_eq_true_eq, List.all_eq_true]
  refine ⟨List.length_pos.mpr hne, ?_⟩
  intro x hx
  have := hsc x hx
  cases x <;> simp_all [isScalar, jsTypeof, isNull]

theorem countOpen_flatMap_one {α : Type} (tag : String) (xs : List α) (g : α → List Token)
    (h : ∀ x ∈ xs, countOpen tag (g x) = 1) : countOpen tag (xs.flatMap g) = xs.length := by
  induction xs with
  | nil => simp [countOpen]
  | cons x xs ih =>
    have h1 := h x (List.mem_cons_self _ _)
    have h2 := ih (fun y hy => h y (List.mem_cons_of_mem _ hy))
    simp only [countOpen, List.flatMap_cons, List.countP_append, List.length_cons] at *
    omega

theorem isObjectArray_of_mappings (items : List JsVal) (hne : items ≠ [])
    (hrec : ∀ x ∈ items, isMapping x = true) :
    isObjectArray (.arr items) = true ∧ isPrimitiveArray (.arr items) = false := by
  constructor
  · simp only [isObjectArray, Bool.and_eq_true, decide_eq_true_eq, List.all_eq_true]
    refine ⟨List.length_pos.mpr hne, ?_⟩
    intro x hx
    have := hrec x hx
    cases x <;> simp_all [isMapping, jsTypeof, isNull, isArray]
  · cases items with
    | nil => exact absurd rfl hne
    | cons x xs =>
      have := hrec x (List.mem_cons_self _ _)
      cases x <;> simp_all [isMapping, isPrimitiveArray, jsTypeof, isNull]

theorem scalars_of_isPrimitiveArray (items : List JsVal)
    (h : isPrimitiveArray (.arr items) = true) :
    items ≠ [] ∧ ∀ x ∈ items, isScalar x = true := by
  simp only [isPrimitiveArray, Bool.and_eq_true, decide_eq_true_eq, List.all_eq_true] at h
  refine ⟨List.length_pos.mp h.1, ?_⟩
  intro x hx
  have := h.2 x hx
  cases x <;> simp_all [isScalar, jsTypeof, isNull]

theorem mappings_of_isObjectArray (items : List JsVal)
    (h : isObjectArray (.arr items) = true) :
    items ≠ [] ∧ ∀ x ∈ items, isMapping x = true := by
  simp only [isObjectArray, Bool.and_eq_true, decide_eq_true_eq, List.all_eq_true] at h
  refine ⟨List.length_pos.mp h.1, ?_⟩
  intro x hx
  have := h.2 x hx
  cases x <;> simp_all [isMapping, jsTypeof, isNull, isArray]

/-- `String` returns for every scalar. -/
theorem jsString_scalar (x : JsVal) (h : isScalar x = true) : ∃ text, jsString x = .ok text := by
  cases x with
  | arr items => simp [isScalar] at h
  | obj props => simp [isScalar] at h
  | bool b => cases b <;> exact ⟨_, by rw [jsString]⟩
  | _ => exact ⟨_, by rw [jsString]⟩

/-- The cells of a list of scalars: `String` returns for each element, and the
cells hold the texts in list order. -/
theorem scalar_cells (cfg : Config) (level : Int) (items : List JsVal)
    (map : Option (Nat × Nat)) (hsc : ∀ x ∈ items, isScalar x = true) :
    ∃ texts : List String,
      items.mapM jsString = .ok texts ∧ texts.length = items.length ∧
      Emission.seq (items.map (fun item =>
        wrapOut (openTok (cfg.name ++ "_td_open") "td" (level + 3) map)
          (stringLeafOut (level + 4) item map)
          (closeTok (cfg.name ++ "_td_close") "td" (level + 3)))) =
      Emission.ok (texts.flatMap (fun text =>
        [openTok (cfg.name ++ "_td_open") "td" (level + 3) map,
         inlineTok (.str text) (level + 4) map,
         closeTok (cfg.name ++ "_td_close") "td" (level + 3)])) 0 := by
  induction items with
  | nil => exact ⟨[], rfl, rfl, rfl⟩
  | cons x xs ih =>
    obtain ⟨texts, h1, h2, h3⟩ := ih (fun y hy => hsc y (List.mem_cons_of_mem _ hy))
    obtain ⟨text, ht⟩ := jsString_scalar x (hsc x (List.mem_cons_self _ _))
    refine ⟨text :: texts, ?_, by simp [h2], ?_⟩
    · rw [List.mapM_cons, ht, h1]
      rfl
    · simp only [List.map_cons, Emission.seq, h3, List.flatMap_cons]
      simp [wrapOut, stringLeafOut, ht, Emission.andThen, Emission.ok]

/-- C5 (primitive-list rule): for a non-empty list all of whose elements are
scalars (neither list nor mapping), `String(element)` returns for every
element, and `createNestedTable` returns after appending exactly nested-open,
tbody-open, tr-open, one td cell per element in list order holding a single
inline leaf with `String(element)`, tr-close, tbody-close, nested-close, and
changes nothing else in the state; the appended tokens have exactly one row,
exactly as many cells as the list has elements, and no token with tag thead or
th. -/
theorem C5_primitive_list_single_row (cfg : Config) (st : State) (items : List JsVal)
    (map : Option (Nat × Nat)) (hne : items ≠ [])
    (hsc : ∀ x ∈ items, isScalar x = true) :
    ∃ (texts : List String) (pushed : List Token),
      items.mapM jsString = .ok texts ∧
      texts.length = items.length ∧
      createNestedTable cfg st (.arr items) map =
        .ok { st with tokens := st.tokens ++ pushed } ∧
      pushed =
        [openTok (cfg.name ++ "_nested_open") "table" st.level map,
         openTok (cfg.name ++ "_tbody_open") "tbody" (st.level + 1) map,
         openTok (cfg.name ++ "_tr_open") "tr" (st.level + 2) map] ++
        texts.flatMap (fun text =>
         [openTok (cfg.name ++ "_td_open") "td" (st.level + 3) map,
          inlineTok (.str text) (st.level + 4) map,
          closeTok (cfg.name ++ "_td_close") "td" (st.level + 3)]) ++
        [closeTok (cfg.name ++ "_tr_close") "tr" (st.level + 2),
         closeTok (cfg.name ++ "_tbody_close") "tbody" (st.level + 1),
         closeTok (cfg.name ++ "_nested_close") "table" st.level] ∧
      countOpen "tr" pushed = 1 ∧
      countOpen "td" pushed = items.length ∧
      ∀ t ∈ pushed, t.tag ≠ "thead" ∧ t.tag ≠ "th" := by
  have hprim := isPrimitiveArray_of_scalars items hne hsc
  obtain ⟨texts, hmap, hlen, hcells⟩ := scalar_cells cfg st.level items map hsc
  have hout : nestedOut cfg st.level (.arr items) map =
      Emission.ok
        ([openTok (cfg.name ++ "_nested_open") "table" st.level map,
          openTok (cfg.name ++ "_tbody_open") "tbody" (st.level + 1) map,
          openTok (cfg.name ++ "_tr_open") "tr" (st.level + 2) map] ++
         texts.flatMap (fun text =>
          [openTok (cfg.name ++ "_td_open") "td" (st.level + 3) map,
           inlineTok (.str text) (st.level + 4) map,
           closeTok (cfg.name ++ "_td_close") "td" (st.level + 3)]) ++
         [closeTok (cfg.name ++ "_tr_close") "tr" (st.level + 2),
          closeTok (cfg.name ++ "_tbody_close") "tbody" (st.level + 1),
          closeTok (cfg.name ++ "_nested_close") "table" st.level]) 0 := by
    rw [nestedOut_arr, if_pos hprim, primitiveOut, hcells]
    simp [Emission.andThen, Emission.ok]
  refine ⟨texts, _, hmap, hlen, ?_, rfl, ?_, ?_, ?_⟩
  · rw [createNestedTable_finish, hout, State.finish_ok, State.emit_zero]
  · have hz : countOpen "tr" (texts.flatMap (fun text =>
        [openTok (cfg.name ++ "_td_open") "td" (st.level + 3) map,
         inlineTok (.str text) (st.level + 4) map,
         closeTok (cfg.name ++ "_td_close") "td" (st.level + 3)])) = 0 := by
      simp only [countOpen, List.countP_eq_zero, List.mem_flatMap, List.mem_cons,
        List.mem_singleton, List.not_mem_nil, or_false]
      rintro t ⟨x, _, (h | h | h)⟩ <;> subst h <;> simp [openTok, inlineTok, closeTok]
    simp only [countOpen, List.countP_append] at hz ⊢
    rw [hz]
    simp [openTok, closeTok]
  · have hz := countOpen_flatMap_one "td" texts (fun text =>
        [openTok (cfg.name ++ "_td_open") "td" (st.level + 3) map,
         inlineTok (.str text) (st.level + 4) map,
         closeTok (cfg.name ++ "_td_close") "td" (st.level + 3)])
        (fun x _ => by simp [countOpen, openTok, inlineTok, closeTok])
    simp only [countOpen, List.countP_append] at hz ⊢
    rw [hz]
    simp [openTok, closeTok, hlen]
  · intro t ht
    simp only [List.mem_append, List.mem_flatMap, List.mem_cons,
      List.mem_singleton, List.not_mem_nil, or_false] at ht
    rcases ht with ((h | h | h) | ⟨x, _, (h | h | h)⟩) | (h | h | h) <;>
      subst h <;> simp [openTok, inlineTok, closeTok]

/-- C5 at the list `["a", "b"]` under the default configuration, from a state
with no token at level 0. -/
theorem C5_primitive_list_single_row_witness :
    ([JsVal.str "a", JsVal.str "b"] ≠ [] ∧
      ∀ x ∈ [JsVal.str "a", JsVal.str "b"], isScalar x = true) ∧
    ∃ pushed : List Token,
      createNestedTable Config.default (State.blank 0)
          (.arr [JsVal.str "a", JsVal.str "b"]) none =
        .ok { State.blank 0 with tokens := (State.blank 0).tokens ++ pushed } ∧
      pushed =
        [openTok "yaml-frontmatter_nested_open" "table" 0 none,
         openTok "yaml-frontmatter_tbody_open" "tbody" 1 none,
         openTok "yaml-frontmatter_tr_open" "tr" 2 none,
         openTok "yaml-frontmatter_td_open" "td" 3 none,
         inlineTok (.str "a") 4 none,
         closeTok "yaml-frontmatter_td_close" "td" 3,
         openTok "yaml-frontmatter_td_open" "td" 3 none,
         inlineTok (.str "b") 4 none,
         closeTok "yaml-frontmatter_td_close" "td" 3,
         closeTok "yaml-frontmatter_tr_close" "tr" 2,
         closeTok "yaml-frontmatter_tbody_close" "tbody" 1,
         closeTok "yaml-frontmatter_nested_close" "table" 0] := by
  refine ⟨⟨by simp, by simp [isScalar]⟩, ?_⟩
  obtain ⟨texts, pushed, h0, -, h1, h2, -⟩ :=
    C5_primitive_list_single_row Config.default (State.blank 0)
      [JsVal.str "a", JsVal.str "b"] none (by simp) (by simp [isScalar])
  have ht : texts = ["a", "b"] := by
    have h3 : [JsVal.str "a", JsVal.str "b"].mapM jsString =
        (Except.ok ["a", "b"] : Except JsError (List String)) := by
      simp only [List.mapM_cons, List.mapM_nil, jsString]
      rfl
    rw [h3] at h0
    cases h0
    rfl
  subst ht
  refine ⟨pushed, h1, ?_⟩
  rw [h2]
  simp [Config.default, State.blank]

/-- C6 as stated fails: the list `[1, null]` contains a null element, so it is
neither a primitive list nor a record list in the words of the claim, yet
`isPrimitiveArray` accepts it (`item === null` counts as primitive) and
`createNestedTable` pushes a one-row table whose second cell reads `null`. -/
theorem C6_null_element_counterexample :
    ¬ SpecPrimitiveList [JsVal.num "1", JsVal.null] ∧
    ¬ SpecRecordList [JsVal.num "1", JsVal.null] ∧
    createNestedTable Config.default (State.blank 0)
        (.arr [JsVal.num "1", JsVal.null]) none =
      .ok { State.blank 0 with tokens :=
      [openTok "yaml-frontmatter_nested_open" "table" 0 none,
       openTok "yaml-frontmatter_tbody_open" "tbody" 1 none,
       openTok "yaml-frontmatter_tr_open" "tr" 2 none,
       openTok "yaml-frontmatter_td_open" "td" 3 none,
       inlineTok (.str "1") 4 none,
       closeTok "yaml-frontmatter_td_close" "td" 3,
       openTok "yaml-frontmatter_td_open" "td" 3 none,
       inlineTok (.str "null") 4 none,
       closeTok "yaml-frontmatter_td_close" "td" 3,
       closeTok "yaml-frontmatter_tr_close" "tr" 2,
       closeTok "yaml-frontmatter_tbody_close" "tbody" 1,
       closeTok "yaml-frontmatter_nested_close" "table" 0] } := by
  refine ⟨?_, ?_, ?_⟩
  · simp [SpecPrimitiveList]
  · simp [SpecRecordList, isMapping]
  · rw [createNestedTable_finish, nestedOut_arr]
    simp [isPrimitiveArray, jsTypeof, isNull, primitiveOut, Config.default, State.blank,
      jsString, stringLeafOut, wrapOut, Emission.seq, Emission.andThen, Emission.ok,
      State.finish, State.emit]

/-- C6, amended: call a list primitive when it is non-empty and none of its
elements is a list or a mapping (a `null` element is allowed), and a record
list when it is non-empty and all its elements are mappings. For every list
that is neither, `createNestedTable` returns the state as it got it (no token
is pushed, no exception is thrown), and a cell built around the list is its
open token immediately followed by its close token. -/
theorem C6_neither_list_pushes_nothing (cfg : Config) (st : State) (items : List JsVal)
    (map : Option (Nat × Nat))
    (hprim : ¬ (items ≠ [] ∧ ∀ x ∈ items, isScalar x = true))
    (hrec : ¬ (items ≠ [] ∧ ∀ x ∈ items, isMapping x = true)) :
    createNestedTable cfg st (.arr items) map = .ok st ∧
    nestedOut cfg st.level (.arr items) map = Emission.ok [] 0 ∧
    ∀ cellType : String,
      createCell cfg st cellType (.arr items) map =
        .ok { st with tokens := st.tokens ++
            [openTok (cfg.name ++ "_" ++ cellType ++ "_open") cellType st.level map,
             closeTok (cfg.name ++ "_" ++ cellType ++ "_close") cellType st.level] } := by
  have h1 : isPrimitiveArray (.arr items) = false := by
    cases h : isPrimitiveArray (.arr items) with
    | false => rfl
    | true => exact absurd (scalars_of_isPrimitiveArray items h) hprim
  have h2 : isObjectArray (.arr items) = false := by
    cases h : isObjectArray (.arr items) with
    | false => rfl
    | true => exact absurd (mappings_of_isObjectArray items h) hrec
  have h3 : ∀ lvl, nestedOut cfg lvl (.arr items) map = Emission.ok [] 0 := by
    intro lvl
    rw [nestedOut_arr]
    simp [h1, h2]
  have h4 : ∀ s : State, createNestedTable cfg s (.arr items) map = .ok s := by
    intro s
    rw [createNestedTable_finish, h3, State.finish_ok, State.emit_nil_zero]
  refine ⟨h4 st, h3 _, ?_⟩
  intro cellType
  rw [createCell_finish]
  simp [cellOut, isArray, h3, wrapOut, Emission.andThen, Emission.ok, State.finish,
    State.emit]

/-- C6 amended, at the mixed list `["a", {}]`. -/
theorem C6_neither_list_pushes_nothing_witness :
    (¬ ([JsVal.str "a", JsVal.obj []] ≠ [] ∧
        ∀ x ∈ [JsVal.str "a", JsVal.obj []], isScalar x = true) ∧
     ¬ ([JsVal.str "a", JsVal.obj []] ≠ [] ∧
        ∀ x ∈ [JsVal.str "a", JsVal.obj []], isMapping x = true)) ∧
    createNestedTable Config.default (State.blank 0)
      (.arr [JsVal.str "a", JsVal.obj []]) none = .ok (State.blank 0) :=
  ⟨⟨by simp [isScalar], by simp [isMapping]⟩,
   (C6_neither_list_pushes_nothing Config.default (State.blank 0)
      [JsVal.str "a", JsVal.obj []] none (by simp [isScalar]) (by simp [isMapping])).1⟩

/-! ## Determinism of the build -/

theorem eraseLevel_openTok (type tag : String) (level level2 : Int)
    (map : Option (Nat × Nat)) :
    (openTok type tag level map).eraseLevel = (openTok type tag level2 map).eraseLevel := rfl

theorem eraseLevel_closeTok (type tag : String) (level level2 : Int) :
    (closeTok type tag level).eraseLevel = (closeTok type tag level2).eraseLevel := rfl

theorem eraseLevel_tableOpenTok (cfg : Config) (level level2 : Int)
    (map : Option (Nat × Nat)) (vertical : Bool) :
    (tableOpenTok cfg level map vertical).eraseLevel =
      (tableOpenTok cfg level2 map vertical).eraseLevel := by
  unfold tableOpenTok addTableAttributes Token.eraseLevel
  simp only
  split <;> split <;> rfl

theorem eraseLevel_tableCloseTok (cfg : Config) (level level2 : Int) :
    (tableCloseTok cfg level).eraseLevel = (tableCloseTok cfg level2).eraseLevel := rfl

theorem Emission.eraseLevel_ok (ts : List Token) (d : Int) :
    (Emission.ok ts d).eraseLevel = Emission.ok (ts.map Token.eraseLevel) d := rfl

theorem Emission.eraseLevel_andThen (a b : Emission) :
    (a.andThen b).eraseLevel = a.eraseLevel.andThen b.eraseLevel := by
  obtain ⟨ts, d, thrown⟩ := a
  cases thrown <;> simp [Emission.andThen, Emission.eraseLevel]

theorem Emission.eraseLevel_seq (es : List Emission) :
    (Emission.seq es).eraseLevel = Emission.seq (es.map Emission.eraseLevel) := by
  induction es with
  | nil => rfl
  | cons a rest ih =>
    simp only [Emission.seq, List.map_cons, Emission.eraseLevel_andThen, ih]

theorem eraseLevel_wrapOut (openT closeT : Token) (body : Emission) :
    (wrapOut openT body closeT).eraseLevel =
      wrapOut openT.eraseLevel body.eraseLevel closeT.eraseLevel := by
  simp [wrapOut, Emission.eraseLevel_andThen, Emission.eraseLevel_ok]

theorem stringLeafOut_eraseLevel (value : JsVal) (map : Option (Nat × Nat))
    (level level2 : Int) :
    (stringLeafOut level value map).eraseLevel = (stringLeafOut level2 value map).eraseLevel := by
  unfold stringLeafOut
  cases jsString value <;> rfl

/-- Apart from the `level` fields of its tokens, the emission of a nested table
does not depend on the level it is opened at. -/
theorem nestedOut_eraseLevel (cfg : Config) (map : Option (Nat × Nat)) (v : JsVal) :
    ∀ (level level2 : Int),
      (nestedOut cfg level v map).eraseLevel = (nestedOut cfg level2 v map).eraseLevel := by
  induction v using nested_induction with
  | hnot v hv =>
    intro level level2
    rw [nestedOut_not_arr _ _ _ _ hv, nestedOut_not_arr _ _ _ _ hv]
  | harr items ih =>
    intro level level2
    rw [nestedOut_arr, nestedOut_arr]
    split
    · simp only [primitiveOut, Emission.eraseLevel_andThen, Emission.eraseLevel_ok,
        Emission.eraseLevel_seq, List.map_map, List.map_cons, List.map_nil]
      congr 3
      apply List.map_congr_left
      intro item _
      simp only [Function.comp, eraseLevel_wrapOut]
      rw [stringLeafOut_eraseLevel item map (level + 4) (level2 + 4)]
      rfl
    · split
      · simp only [recordOut, Emission.eraseLevel_andThen, Emission.eraseLevel_ok,
          Emission.eraseLevel_seq, List.map_map, List.map_cons, List.map_nil, List.map_append,
          List.map_flatMap]
        congr 3
        apply List.map_congr_left
        intro row hrow
        simp only [Function.comp, eraseLevel_wrapOut, Emission.eraseLevel_seq, List.map_map]
        rw [eraseLevel_openTok _ _ (level + 2) (level2 + 2),
          eraseLevel_closeTok _ _ (level + 2) (level2 + 2)]
        congr 2
        apply List.map_congr_left
        intro key _
        simp only [Function.comp, eraseLevel_wrapOut]
        rw [eraseLevel_openTok _ _ (level + 3) (level2 + 3),
          eraseLevel_closeTok _ _ (level + 3) (level2 + 3)]
        congr 1
        unfold valueOut
        split
        · rename_i harr
          exact ih row hrow key harr _ _
        · exact stringLeafOut_eraseLevel _ _ _ _
      · rfl

theorem cellOut_eraseLevel (cfg : Config) (cellType : String) (content : JsVal)
    (map : Option (Nat × Nat)) (level level2 : Int) :
    (cellOut cfg level cellType content map).eraseLevel =
      (cellOut cfg level2 cellType content map).eraseLevel := by
  unfold cellOut
  simp only [eraseLevel_wrapOut]
  rw [eraseLevel_openTok _ _ level level2, eraseLevel_closeTok _ _ level level2]
  congr 1
  split
  · exact nestedOut_eraseLevel cfg map content _ _
  · rfl

theorem rowCellOut_eraseLevel (cfg : Config) (data : JsVal) (cellType : String)
    (map : Option (Nat × Nat)) (key : String) (level level2 : Int) :
    (rowCellOut cfg level data cellType map key).eraseLevel =
      (rowCellOut cfg level2 data cellType map key).eraseLevel := by
  unfold rowCellOut
  split
  · exact cellOut_eraseLevel _ _ _ _ _ _
  · cases jsString (getProp data key) with
    | error err => rfl
    | ok text => exact cellOut_eraseLevel _ _ _ _ _ _

/-- Apart from the `level` fields of its tokens, the emission of a layout does
not depend on the level it is opened at. -/
theorem layoutOut_eraseLevel (cfg : Config) (map : Option (Nat × Nat)) (v : JsVal)
    (vertical : Bool) (level level2 : Int) :
    (layoutOut cfg level v map vertical).eraseLevel =
      (layoutOut cfg level2 v map vertical).eraseLevel := by
  cases vertical with
  | true =>
    simp only [layoutOut, if_true, verticalOut, Emission.eraseLevel_andThen,
      Emission.eraseLevel_ok, Emission.eraseLevel_seq, List.map_map, List.map_cons,
      List.map_nil, eraseLevel_tableOpenTok cfg level level2,
      eraseLevel_tableCloseTok cfg level level2]
    congr 3
    apply List.map_congr_left
    intro key _
    simp only [Function.comp, Emission.eraseLevel_andThen, Emission.eraseLevel_ok,
      cellOut_eraseLevel cfg "td" _ map (level + 3) (level2 + 3)]
    rfl
  | false =>
    simp only [layoutOut, Bool.false_eq_true, if_false, horizontalOut,
      Emission.eraseLevel_andThen, Emission.eraseLevel_ok, List.map_append, List.map_cons,
      List.map_nil, List.map_flatMap, eraseLevel_tableOpenTok cfg level level2,
      eraseLevel_tableCloseTok cfg level level2]
    congr 2
    unfold rowOut
    simp only [eraseLevel_wrapOut, Emission.eraseLevel_seq, List.map_map]
    rw [eraseLevel_openTok _ _ (level + 2) (level2 + 2),
      eraseLevel_closeTok _ _ (level + 2) (level2 + 2)]
    congr 2
    apply List.map_congr_left
    intro key _
    exact rowCellOut_eraseLevel _ _ _ _ _ _ _

/-- C17 (build determinism): for every value, layout, configuration and block
line range, and any two parse states, the two runs of `pushTokensToState` end
the same way, and what they append is fixed by those inputs and the nesting
level of the state. Either `Object.keys` throws in both (the value is `null`
or `undefined`) and nothing is appended; or both return `true`; or both throw
the same exception at the same point of the build. In the last two cases the
two appended sequences agree in every field but `level` (type, tag, nesting,
content, source span, attributes, markup, children, block flag), and are
identical when the two states are at the same nesting level. The tokens the
states already hold play no part. -/
theorem C17_build_determinism (cfg : Config) (st1 st2 : State) (s e : Nat) (v : JsVal)
    (vertical : Bool) :
    (pushTokensToState cfg st1 s e v vertical = .error (.typeError, st1) ∧
      pushTokensToState cfg st2 s e v vertical = .error (.typeError, st2)) ∨
    (∃ pushed1 pushed2 : List Token,
      pushTokensToState cfg st1 s e v vertical =
        .ok (true, { st1 with tokens := st1.tokens ++ pushed1, line := e + 1 }) ∧
      pushTokensToState cfg st2 s e v vertical =
        .ok (true, { st2 with tokens := st2.tokens ++ pushed2, line := e + 1 }) ∧
      pushed1.map Token.eraseLevel = pushed2.map Token.eraseLevel ∧
      (st1.level = st2.level → pushed1 = pushed2)) ∨
    (∃ (err : JsError) (d : Int) (pushed1 pushed2 : List Token),
      pushTokensToState cfg st1 s e v vertical =
        .error (err, { st1 with
          parentType := cfg.name, lineMax := e
          tokens := st1.tokens ++ pushed1, level := st1.level + d }) ∧
      pushTokensToState cfg st2 s e v vertical =
        .error (err, { st2 with
          parentType := cfg.name, lineMax := e
          tokens := st2.tokens ++ pushed2, level := st2.level + d }) ∧
      pushed1.map Token.eraseLevel = pushed2.map Token.eraseLevel ∧
      (st1.level = st2.level → pushed1 = pushed2)) := by
  by_cases hv : v = .null ∨ v = .undefined
  · left
    rcases hv with h | h <;> subst h <;> exact ⟨rfl, rfl⟩
  · right
    have hkeys : objectKeys v = .ok (ownKeys v) := by
      cases v <;> first | rfl | simp at hv
    have hE := layoutOut_eraseLevel cfg (some (s, e)) v vertical st1.level st2.level
    have htok := congrArg Emission.tokens hE
    have hdelta := congrArg Emission.delta hE
    have hthrown := congrArg Emission.thrown hE
    simp only [Emission.eraseLevel] at htok hdelta hthrown
    rw [pushTokensToState_eq cfg st1 s e v vertical hkeys,
      pushTokensToState_eq cfg st2 s e v vertical hkeys]
    cases hth : (layoutOut cfg st1.level v (some (s, e)) vertical).thrown with
    | none =>
      left
      refine ⟨_, _, ?_, ?_, htok, ?_⟩
      · simp only [State.outcome, hth]
      · simp only [State.outcome, ← hthrown, hth]
      · intro hlevel
        rw [hlevel]
    | some err =>
      right
      refine ⟨err, (layoutOut cfg st1.level v (some (s, e)) vertical).delta, _, _, ?_, ?_,
        htok, ?_⟩
      · simp only [State.outcome, hth]
      · simp only [State.outcome, ← hthrown, hth, hdelta]
      · intro hlevel
        rw [hlevel]

/-! ## The scenarios of the specification -/

/-- Scenario A of the specification: `{title: "Hello", tags: ["a", "b"]}` in the
horizontal layout, default configuration, block on lines 0 to 3. -/
theorem scenarioA_horizontal :
    pushTokensToState Config.default (State.blank 0) 0 3
        (.obj [("title", .str "Hello"), ("tags", .arr [.str "a", .str "b"])]) false =
      .ok (true, { State.blank 0 with
        line := 4
        tokens :=
          [{ openTok "yaml-frontmatter_open" "table" 0 (some (0, 3)) with
               markup := "---\n#yaml" },
           openTok "yaml-frontmatter_thead_open" "thead" 1 (some (0, 3)),
           openTok "yaml-frontmatter_tr_open" "tr" 2 (some (0, 3)),
           openTok "yaml-frontmatter_th_open" "th" 3 (some (0, 3)),
           inlineTok (.str "title") 4 (some (0, 3)),
           closeTok "yaml-frontmatter_th_close" "th" 3,
           openTok "yaml-frontmatter_th_open" "th" 3 (some (0, 3)),
           inlineTok (.str "tags") 4 (some (0, 3)),
           closeTok "yaml-frontmatter_th_close" "th" 3,
           closeTok "yaml-frontmatter_tr_close" "tr" 2,
           closeTok "yaml-frontmatter_thead_close" "thead" 1,
           openTok "yaml-frontmatter_tbody_open" "tbody" 1 (some (0, 3)),
           openTok "yaml-frontmatter_tr_open" "tr" 2 (some (0, 3)),
           openTok "yaml-frontmatter_td_open" "td" 3 (some (0, 3)),
           inlineTok (.str "Hello") 4 (some (0, 3)),
           closeTok "yaml-frontmatter_td_close" "td" 3,
           openTok "yaml-frontmatter_td_open" "td" 3 (some (0, 3)),
           openTok "yaml-frontmatter_nested_open" "table" 4 (some (0, 3)),
           openTok "yaml-frontmatter_tbody_open" "tbody" 5 (some (0, 3)),
           openTok "yaml-frontmatter_tr_open" "tr" 6 (some (0, 3)),
           openTok "yaml-frontmatter_td_open" "td" 7 (some (0, 3)),
           inlineTok (.str "a") 8 (some (0, 3)),
           closeTok "yaml-frontmatter_td_close" "td" 7,
           openTok "yaml-frontmatter_td_open" "td" 7 (some (0, 3)),
           inlineTok (.str "b") 8 (some (0, 3)),
           closeTok "yaml-frontmatter_td_close" "td" 7,
           closeTok "yaml-frontmatter_tr_close" "tr" 6,
           closeTok "yaml-frontmatter_tbody_close" "tbody" 5,
           closeTok "yaml-frontmatter_nested_close" "table" 4,
           closeTok "yaml-frontmatter_td_close" "td" 3,
           closeTok "yaml-frontmatter_tr_close" "tr" 2,
           closeTok "yaml-frontmatter_tbody_close" "tbody" 1,
           { closeTok "yaml-frontmatter_close" "table" 0 with markup := "---" }] }) := by
  rw [pushTokensToState_eq Config.default (State.blank 0) 0 3
    (.obj [("title", .str "Hello"), ("tags", .arr [.str "a", .str "b"])]) false rfl]
  simp [layoutOut, horizontalOut, rowOut, rowCellOut, cellOut, nestedOut_arr, primitiveOut,
    stringLeafOut, isPrimitiveArray, jsTypeof, isNull, ownKeys, ownEntries, getProp,
    List.lookup, isArray, jsString, wrapOut, Emission.seq, Emission.andThen, Emission.ok,
    State.outcome, tableOpenTok, tableCloseTok, addTableAttributes, optTruthy,
    Config.default, State.blank]

/-- Scenario B of the specification: `{items: [{name: "x", qty: 1}, {name: "y",
qty: 2}]}` in the vertical layout: one row, whose th cell holds `items` and
whose td cell holds the nested table with header `name`, `qty` and the body
rows `x`, `1` and `y`, `2`. -/
theorem scenarioB_vertical :
    pushTokensToState Config.default (State.blank 0) 0 5
        (.obj [("items", .arr [.obj [("name", .str "x"), ("qty", .num "1")],
                               .obj [("name", .str "y"), ("qty", .num "2")]])]) true =
      .ok (true, { State.blank 0 with
        line := 6
        tokens :=
          [{ openTok "yaml-frontmatter_open" "table" 0 (some (0, 5)) with
               markup := "---\n#yaml-v" },
           openTok "yaml-frontmatter_tbody_open" "tbody" 1 (some (0, 5)),
           openTok "yaml-frontmatter_tr_open" "tr" 2 (some (0, 5)),
           openTok "yaml-frontmatter_th_open" "th" 3 (some (0, 5)),
           inlineTok (.str "items") 4 (some (0, 5)),
           closeTok "yaml-frontmatter_th_close" "th" 3,
           openTok "yaml-frontmatter_td_open" "td" 3 (some (0, 5)),
           openTok "yaml-frontmatter_nested_open" "table" 4 (some (0, 5)),
           openTok "yaml-frontmatter_thead_open" "thead" 5 (some (0, 5)),
           openTok "yaml-frontmatter_tr_open" "tr" 6 (some (0, 5)),
           openTok "yaml-frontmatter_th_open" "th" 7 (some (0, 5)),
           inlineTok (.str "name") 8 (some (0, 5)),
           closeTok "yaml-frontmatter_th_close" "th" 7,
           openTok "yaml-frontmatter_th_open" "th" 7 (some (0, 5)),
           inlineTok (.str "qty") 8 (some (0, 5)),
           closeTok "yaml-frontmatter_th_close" "th" 7,
           closeTok "yaml-frontmatter_tr_close" "tr" 6,
           closeTok "yaml-frontmatter_thead_close" "thead" 5,
           openTok "yaml-frontmatter_tbody_open" "tbody" 5 (some (0, 5)),
           openTok "yaml-frontmatter_tr_open" "tr" 6 (some (0, 5)),
           openTok "yaml-frontmatter_td_open" "td" 7 (some (0, 5)),
           inlineTok (.str "x") 8 (some (0, 5)),
           closeTok "yaml-frontmatter_td_close" "td" 7,
           openTok "yaml-frontmatter_td_open" "td" 7 (some (0, 5)),
           inlineTok (.str "1") 8 (some (0, 5)),
           closeTok "yaml-frontmatter_td_close" "td" 7,
           closeTok "yaml-frontmatter_tr_close" "tr" 6,
           openTok "yaml-frontmatter_tr_open" "tr" 6 (some (0, 5)),
           openTok "yaml-frontmatter_td_open" "td" 7 (some (0, 5)),
           inlineTok (.str "y") 8 (some (0, 5)),
           closeTok "yaml-frontmatter_td_close" "td" 7,
           openTok "yaml-frontmatter_td_open" "td" 7 (some (0, 5)),
           inlineTok (.str "2") 8 (some (0, 5)),
           closeTok "yaml-frontmatter_td_close" "td" 7,
           closeTok "yaml-frontmatter_tr_close" "tr" 6,
           closeTok "yaml-frontmatter_tbody_close" "tbody" 5,
           closeTok "yaml-frontmatter_nested_close" "table" 4,
           closeTok "yaml-frontmatter_td_close" "td" 3,
           closeTok "yaml-frontmatter_tr_close" "tr" 2,
           closeTok "yaml-frontmatter_tbody_close" "tbody" 1,
           { closeTok "yaml-frontmatter_close" "table" 0 with markup := "---" }] }) := by
  rw [pushTokensToState_eq Config.default (State.blank 0) 0 5
    (.obj [("items", .arr [.obj [("name", .str "x"), ("qty", .num "1")],
                           .obj [("name", .str "y"), ("qty", .num "2")]])]) true rfl]
  simp [layoutOut, verticalOut, cellOut, nestedOut_arr, recordOut, valueOut, stringLeafOut,
    firstItem, isPrimitiveArray, isObjectArray, jsTypeof, isNull, ownKeys, ownEntries, getProp,
    List.lookup, isArray, jsString, wrapOut, Emission.seq, Emission.andThen, Emission.ok,
    State.outcome, tableOpenTok, tableCloseTok, addTableAttributes, optTruthy,
    Config.default, State.blank]

/-! ## The builder on values whose coercion throws -/

/-- The horizontal build of `{a: {toString: 1}}` from any state: the
header is built, the body row is opened, and `String` throws on the value of
`a` before its cell is opened. -/
theorem horizontal_toString_throws (st : State) (s e : Nat) :
    pushTokensToState Config.default st s e
        (.obj [("a", .obj [("toString", .num "1")])]) false =
      .error (.typeError, { st with
        parentType := "yaml-frontmatter"
        lineMax := e
        level := st.level + 3
        tokens := st.tokens ++
          [{ openTok "yaml-frontmatter_open" "table" st.level (some (s, e)) with
               markup := "---\n#yaml" },
           openTok "yaml-frontmatter_thead_open" "thead" (st.level + 1) (some (s, e)),
           openTok "yaml-frontmatter_tr_open" "tr" (st.level + 2) (some (s, e)),
           openTok "yaml-frontmatter_th_open" "th" (st.level + 3) (some (s, e)),
           inlineTok (.str "a") (st.level + 4) (some (s, e)),
           closeTok "yaml-frontmatter_th_close" "th" (st.level + 3),
           closeTok "yaml-frontmatter_tr_close" "tr" (st.level + 2),
           closeTok "yaml-frontmatter_thead_close" "thead" (st.level + 1),
           openTok "yaml-frontmatter_tbody_open" "tbody" (st.level + 1) (some (s, e)),
           openTok "yaml-frontmatter_tr_open" "tr" (st.level + 2) (some (s, e))] }) := by
  rw [pushTokensToState_eq Config.default st s e
    (.obj [("a", .obj [("toString", .num "1")])]) false rfl]
  simp [layoutOut, horizontalOut, rowOut, rowCellOut, getProp, ownEntries, ownKeys,
    List.lookup, isArray, jsString, hasOwn, wrapOut, Emission.seq, Emission.andThen,
    Emission.ok, State.outcome, Config.default, tableOpenTok, addTableAttributes, optTruthy]

/-- C1, the failing input: the horizontal build of the non-empty mapping
`{a: {toString: 1}}` (the YAML text `a:` followed by the indented line
`toString: 1`) does not push the table of the claim. `createRow` calls
`String(value)` on the inner mapping, whose own property `toString` is the
number 1, so `String` throws a `TypeError`. The call leaves `pushTokensToState`
by that exception after ten tokens: the header is complete, the body row is
open, and no td cell, no tbody-close and no table-close was pushed. -/
theorem C1_horizontal_build_throws :
    pushTokensToState Config.default (State.blank 0) 0 3
        (.obj [("a", .obj [("toString", .num "1")])]) false =
      .error (.typeError, { State.blank 0 with
        parentType := "yaml-frontmatter"
        lineMax := 3
        level := 3
        tokens :=
          [{ openTok "yaml-frontmatter_open" "table" 0 (some (0, 3)) with
               markup := "---\n#yaml" },
           openTok "yaml-frontmatter_thead_open" "thead" 1 (some (0, 3)),
           openTok "yaml-frontmatter_tr_open" "tr" 2 (some (0, 3)),
           openTok "yaml-frontmatter_th_open" "th" 3 (some (0, 3)),
           inlineTok (.str "a") 4 (some (0, 3)),
           closeTok "yaml-frontmatter_th_close" "th" 3,
           closeTok "yaml-frontmatter_tr_close" "tr" 2,
           closeTok "yaml-frontmatter_thead_close" "thead" 1,
           openTok "yaml-frontmatter_tbody_open" "tbody" 1 (some (0, 3)),
           openTok "yaml-frontmatter_tr_open" "tr" 2 (some (0, 3))] }) := by
  rw [horizontal_toString_throws]
  simp [State.blank]

/-- C2, the failing input: the vertical build of the non-empty mapping
`{items: [{a: {toString: 1}}]}` does not push the rows of the claim.
The value of `items` is a list of records, so `createCell` hands it to
`createNestedTable`, which pushes the inline token of the cell of `a` and then
calls `String` on the inner mapping; its own property `toString` is the number
1 and `String` throws a `TypeError`. The call leaves `pushTokensToState` by that
exception after nineteen tokens, the last one an inline token without content;
the row of `items` is never closed and no tbody-close or table-close is
pushed. -/
theorem C2_vertical_build_throws :
    pushTokensToState Config.default (State.blank 0) 0 3
        (.obj [("items", .arr [.obj [("a", .obj [("toString", .num "1")])]])]) true =
      .error (.typeError, { State.blank 0 with
        parentType := "yaml-frontmatter"
        lineMax := 3
        level := 8
        tokens :=
          [{ openTok "yaml-frontmatter_open" "table" 0 (some (0, 3)) with
               markup := "---\n#yaml-v" },
           openTok "yaml-frontmatter_tbody_open" "tbody" 1 (some (0, 3)),
           openTok "yaml-frontmatter_tr_open" "tr" 2 (some (0, 3)),
           openTok "yaml-frontmatter_th_open" "th" 3 (some (0, 3)),
           inlineTok (.str "items") 4 (some (0, 3)),
           closeTok "yaml-frontmatter_th_close" "th" 3,
           openTok "yaml-frontmatter_td_open" "td" 3 (some (0, 3)),
           openTok "yaml-frontmatter_nested_open" "table" 4 (some (0, 3)),
           openTok "yaml-frontmatter_thead_open" "thead" 5 (some (0, 3)),
           openTok "yaml-frontmatter_tr_open" "tr" 6 (some (0, 3)),
           openTok "yaml-frontmatter_th_open" "th" 7 (some (0, 3)),
           inlineTok (.str "a") 8 (some (0, 3)),
           closeTok "yaml-frontmatter_th_close" "th" 7,
           closeTok "yaml-frontmatter_tr_close" "tr" 6,
           closeTok "yaml-frontmatter_thead_close" "thead" 5,
           openTok "yaml-frontmatter_tbody_open" "tbody" 5 (some (0, 3)),
           openTok "yaml-frontmatter_tr_open" "tr" 6 (some (0, 3)),
           openTok "yaml-frontmatter_td_open" "td" 7 (some (0, 3)),
           bareInlineTok 8] }) := by
  rw [pushTokensToState_eq Config.default (State.blank 0) 0 3
    (.obj [("items", .arr [.obj [("a", .obj [("toString", .num "1")])]])]) true rfl]
  simp [layoutOut, verticalOut, cellOut, nestedOut_arr, recordOut, valueOut, stringLeafOut,
    firstItem, isPrimitiveArray, isObjectArray, jsTypeof, isNull, getProp, ownEntries, ownKeys,
    List.lookup, isArray, jsString, hasOwn, wrapOut, Emission.seq, Emission.andThen,
    Emission.ok, State.outcome, Config.default, tableOpenTok, addTableAttributes, optTruthy,
    State.blank]

/-- C3, the failing input: in the vertical layout the td cell of the key `count`
of `{count: 1}` holds an inline leaf whose content is the number `1`
itself, not the text `String(1)`; `createCell` stores the content it is handed
and only `createRow`, which the vertical branch does not call, coerces. -/
theorem C3_vertical_value_not_coerced :
    pushTokensToState Config.default (State.blank 0) 0 3
        (.obj [("count", .num "1")]) true =
      .ok (true, { State.blank 0 with
        line := 4
        tokens :=
          [{ openTok "yaml-frontmatter_open" "table" 0 (some (0, 3)) with
               markup := "---\n#yaml-v" },
           openTok "yaml-frontmatter_tbody_open" "tbody" 1 (some (0, 3)),
           openTok "yaml-frontmatter_tr_open" "tr" 2 (some (0, 3)),
           openTok "yaml-frontmatter_th_open" "th" 3 (some (0, 3)),
           inlineTok (.str "count") 4 (some (0, 3)),
           closeTok "yaml-frontmatter_th_close" "th" 3,
           openTok "yaml-frontmatter_td_open" "td" 3 (some (0, 3)),
           inlineTok (.num "1") 4 (some (0, 3)),
           closeTok "yaml-frontmatter_td_close" "td" 3,
           closeTok "yaml-frontmatter_tr_close" "tr" 2,
           closeTok "yaml-frontmatter_tbody_close" "tbody" 1,
           { closeTok "yaml-frontmatter_close" "table" 0 with markup := "---" }] }) ∧
    jsString (JsVal.num "1") = .ok "1" ∧
    JsVal.num "1" ≠ JsVal.str "1" := by
  refine ⟨?_, ?_, ?_⟩
  · rw [pushTokensToState_eq Config.default (State.blank 0) 0 3
      (.obj [("count", .num "1")]) true rfl]
    simp [layoutOut, verticalOut, cellOut, ownKeys, ownEntries, getProp, List.lookup, isArray,
      wrapOut, Emission.seq, Emission.andThen, Emission.ok, State.outcome,
      tableOpenTok, tableCloseTok, addTableAttributes, optTruthy, Config.default, State.blank]
  · rw [jsString]
  · simp

/-- C4, the failing input: the record list
`[{a: 1, constructor: 2}, {a: 3}]`. The second row has no property
`constructor`, yet its cell does not read `undefined`: `row[key]` finds the
member `constructor` that every object inherits from `Object.prototype`, and
the cell holds the text of the function `Object`. -/
theorem C4_inherited_property_not_undefined :
    hasOwn [("a", JsVal.num "3")] "constructor" = false ∧
    createNestedTable Config.default (State.blank 0)
        (.arr [.obj [("a", .num "1"), ("constructor", .num "2")], .obj [("a", .num "3")]])
        none =
      .ok { State.blank 0 with tokens :=
        [openTok "yaml-frontmatter_nested_open" "table" 0 none,
         openTok "yaml-frontmatter_thead_open" "thead" 1 none,
         openTok "yaml-frontmatter_tr_open" "tr" 2 none,
         openTok "yaml-frontmatter_th_open" "th" 3 none,
         inlineTok (.str "a") 4 none,
         closeTok "yaml-frontmatter_th_close" "th" 3,
         openTok "yaml-frontmatter_th_open" "th" 3 none,
         inlineTok (.str "constructor") 4 none,
         closeTok "yaml-frontmatter_th_close" "th" 3,
         closeTok "yaml-frontmatter_tr_close" "tr" 2,
         closeTok "yaml-frontmatter_thead_close" "thead" 1,
         openTok "yaml-frontmatter_tbody_open" "tbody" 1 none,
         openTok "yaml-frontmatter_tr_open" "tr" 2 none,
         openTok "yaml-frontmatter_td_open" "td" 3 none,
         inlineTok (.str "1") 4 none,
         closeTok "yaml-frontmatter_td_close" "td" 3,
         openTok "yaml-frontmatter_td_open" "td" 3 none,
         inlineTok (.str "2") 4 none,
         closeTok "yaml-frontmatter_td_close" "td" 3,
         closeTok "yaml-frontmatter_tr_close" "tr" 2,
         openTok "yaml-frontmatter_tr_open" "tr" 2 none,
         openTok "yaml-frontmatter_td_open" "td" 3 none,
         inlineTok (.str "3") 4 none,
         closeTok "yaml-frontmatter_td_close" "td" 3,
         openTok "yaml-frontmatter_td_open" "td" 3 none,
         inlineTok (.str "function Object() \x7b [native code] \x7d") 4 none,
         closeTok "yaml-frontmatter_td_close" "td" 3,
         closeTok "yaml-frontmatter_tr_close" "tr" 2,
         closeTok "yaml-frontmatter_tbody_close" "tbody" 1,
         closeTok "yaml-frontmatter_nested_close" "table" 0] } := by
  refine ⟨rfl, ?_⟩
  rw [createNestedTable_finish, nestedOut_arr]
  simp [recordOut, valueOut, stringLeafOut, firstItem, isPrimitiveArray, isObjectArray,
    jsTypeof, isNull, getProp, objectPrototypeGet, ownEntries, ownKeys, List.lookup, isArray,
    jsString, hasOwn, wrapOut, Emission.seq, Emission.andThen, Emission.ok, State.finish,
    State.emit, Config.default, State.blank]

/-- C7, the failing input: the tokens `pushTokensToState` has pushed for
`{a: {toString: 1}}` in the horizontal layout when `String` throws are
not well bracketed. The bracket check ends with the tags `tr`, `tbody` and
`table` still open, and the nesting fields sum to 3, not 0. -/
theorem C7_unbalanced_after_throw :
    ∃ st : State,
      pushTokensToState Config.default (State.blank 0) 0 3
          (.obj [("a", .obj [("toString", .num "1")])]) false = .error (.typeError, st) ∧
      bracketRun [] st.tokens = some ["tr", "tbody", "table"] ∧
      bracketRun [] st.tokens ≠ some [] ∧
      nestingSum st.tokens = 3 := by
  refine ⟨_, horizontal_toString_throws _ _ _, ?_, ?_, ?_⟩
  · simp [State.blank, bracketRun, bracketStep, openTok, closeTok, inlineTok]
  · simp [State.blank, bracketRun, bracketStep, openTok, closeTok, inlineTok]
  · simp [State.blank, nestingSum, openTok, closeTok, inlineTok]

/-! ## The block rule -/

theorem truthy_of_not_isEmptyObject (v : JsVal) (h : isEmptyObject v = false) :
    truthy v = true := by
  unfold isEmptyObject at h
  cases ht : truthy v with
  | true => rfl
  | false => simp [ht] at h

/-- The values the emptiness test of `parseFrontmatter` rejects: the falsy
values and the mapping without keys. -/
theorem isEmptyObject_iff (v : JsVal) :
    isEmptyObject v = true ↔ truthy v = false ∨ v = .obj [] := by
  cases v with
  | obj props =>
    cases props with
    | nil => simp [isEmptyObject, truthy, jsTypeof, isArray, ownKeys, ownEntries]
    | cons p ps => simp [isEmptyObject, truthy, jsTypeof, isArray, ownKeys, ownEntries]
  | arr items => simp [isEmptyObject, truthy, jsTypeof, isArray]
  | undefined => simp [isEmptyObject, truthy]
  | null => simp [isEmptyObject, truthy]
  | bool b => cases b <;> simp [isEmptyObject, truthy, jsTypeof]
  | num t =>
    simp only [isEmptyObject, truthy, jsTypeof]
    by_cases h0 : t = "0" <;> by_cases h1 : t = "NaN" <;> simp [h0, h1]
  | str t => simp [isEmptyObject, truthy, jsTypeof]
  | native name => simp [isEmptyObject, truthy, jsTypeof]

/-- The gate of `parseFrontmatter`: with `allowAnywhere` off, a block that does
not start at line 0 with zero block indent is refused. -/
theorem parseFrontmatter_gate (cfg : Config) (yamlLoad : String → Except JsError JsVal)
    (st : State) (s e : Nat) (silent : Bool)
    (h : (!cfg.allowAnywhere && (s != 0 || decide (st.blkIndent > 0))) = true) :
    parseFrontmatter cfg yamlLoad st s e silent = .ok (false, st) := by
  unfold parseFrontmatter
  rw [if_pos h]

theorem parseFrontmatter_no_start (cfg : Config) (yamlLoad : String → Except JsError JsVal)
    (st : State) (s e : Nat) (silent : Bool)
    (h1 : isStartMarker cfg st s = false) (h2 : isStartMarkerVertical cfg st s = false) :
    parseFrontmatter cfg yamlLoad st s e silent = .ok (false, st) := by
  unfold parseFrontmatter
  split
  · rfl
  · simp [h1, h2]

theorem parseFrontmatter_not_startsBlock (cfg : Config)
    (yamlLoad : String → Except JsError JsVal) (st : State) (s e : Nat) (silent : Bool)
    (h : startsBlock cfg st s = false) :
    parseFrontmatter cfg yamlLoad st s e silent = .ok (false, st) := by
  unfold startsBlock at h
  cases hg : (!cfg.allowAnywhere && (s != 0 || decide (st.blkIndent > 0))) with
  | true => exact parseFrontmatter_gate cfg yamlLoad st s e silent hg
  | false =>
    rw [hg] at h
    simp only [Bool.not_false, Bool.true_and, Bool.or_eq_false_iff] at h
    exact parseFrontmatter_no_start cfg yamlLoad st s e silent h.1 h.2

theorem parseFrontmatter_silent (cfg : Config) (yamlLoad : String → Except JsError JsVal)
    (st : State) (s e : Nat) :
    parseFrontmatter cfg yamlLoad st s e true = .ok (startsBlock cfg st s, st) := by
  cases h : startsBlock cfg st s with
  | false => exact parseFrontmatter_not_startsBlock cfg yamlLoad st s e true h
  | true =>
    unfold startsBlock at h
    simp only [Bool.and_eq_true, Bool.not_eq_true', Bool.or_eq_true] at h
    unfold parseFrontmatter
    rw [if_neg (by simp [h.1])]
    simp only
    rw [if_neg (by rcases h.2 with h2 | h2 <;> simp [h2])]
    simp

/-- The non-silent rule once the gate and the start detection are passed: it
looks for the end line, decodes the content, applies the emptiness test and
hands the value to the builder. -/
theorem parseFrontmatter_started (cfg : Config) (yamlLoad : String → Except JsError JsVal)
    (st : State) (s e : Nat) (h : startsBlock cfg st s = true) :
    parseFrontmatter cfg yamlLoad st s e false =
      match findEndOfBlock cfg st s e with
      | none => .ok (false, st)
      | some blockEndLine =>
        match yamlLoad (parseYamlContent st (s + 1) (blockEndLine - 1)) with
        | .error _ => .ok (false, st)
        | .ok v =>
          if isEmptyObject v then .ok (false, st)
          else pushTokensToState cfg st s blockEndLine v (isStartMarkerVertical cfg st s) := by
  unfold startsBlock at h
  simp only [Bool.and_eq_true, Bool.not_eq_true', Bool.or_eq_true] at h
  unfold parseFrontmatter
  rw [if_neg (by simp [h.1])]
  simp only
  rw [if_neg (by rcases h.2 with h2 | h2 <;> simp [h2])]
  simp only [Bool.false_eq_true, if_false, parseYaml]

/-- The accepting path of the rule: the outcome of the emission of the chosen
layout. -/
theorem parseFrontmatter_accept (cfg : Config) (yamlLoad : String → Except JsError JsVal)
    (st : State) (s e blockEndLine : Nat) (v : JsVal)
    (hstart : startsBlock cfg st s = true)
    (hend : findEndOfBlock cfg st s e = some blockEndLine)
    (hdec : yamlLoad (parseYamlContent st (s + 1) (blockEndLine - 1)) = .ok v)
    (hne : isEmptyObject v = false) :
    parseFrontmatter cfg yamlLoad st s e false =
      st.outcome cfg blockEndLine
        (layoutOut cfg st.level v (some (s, blockEndLine)) (isStartMarkerVertical cfg st s)) := by
  rw [parseFrontmatter_started cfg yamlLoad st s e hstart, hend]
  simp only [hdec, hne, Bool.false_eq_true, if_false]
  exact pushTokensToState_eq cfg st s blockEndLine v _
    (objectKeys_of_truthy v (truthy_of_not_isEmptyObject v hne))

theorem outcome_ok_inv (cfg : Config) (st st1 : State) (e : Nat) (em : Emission)
    (r : Bool) (h : st.outcome cfg e em = .ok (r, st1)) :
    em.thrown = none ∧ r = true ∧
    st1 = { st with tokens := st.tokens ++ em.tokens, line := e + 1 } := by
  unfold State.outcome at h
  cases hth : em.thrown with
  | some err => rw [hth] at h; simp at h
  | none =>
    rw [hth] at h
    simp only [Except.ok.injEq, Prod.mk.injEq] at h
    exact ⟨rfl, h.1.symm, h.2.symm⟩

theorem outcome_of_ok (cfg : Config) (st : State) (e : Nat) (em : Emission)
    (h : em.thrown = none) :
    st.outcome cfg e em =
      .ok (true, { st with tokens := st.tokens ++ em.tokens, line := e + 1 }) := by
  simp only [State.outcome, h]

/-- Every layout starts with the table-open token. -/
theorem layoutOut_tokens_cons (cfg : Config) (level : Int) (v : JsVal)
    (map : Option (Nat × Nat)) (vertical : Bool) :
    ∃ rest : List Token,
      (layoutOut cfg level v map vertical).tokens = tableOpenTok cfg level map vertical :: rest := by
  cases vertical with
  | true => exact ⟨_, by simp [layoutOut, verticalOut, Emission.andThen, Emission.ok]; rfl⟩
  | false => exact ⟨_, by simp [layoutOut, horizontalOut, Emission.andThen, Emission.ok]; rfl⟩

/-- The build of `{a: 1}` returns in both layouts. -/
theorem layoutOut_a1_returns (cfg : Config) (level : Int) (map : Option (Nat × Nat))
    (vertical : Bool) :
    (layoutOut cfg level (.obj [("a", .num "1")]) map vertical).thrown = none := by
  cases vertical <;>
    simp [layoutOut, verticalOut, horizontalOut, rowOut, rowCellOut, cellOut, getProp,
      ownEntries, ownKeys, List.lookup, isArray, jsString, wrapOut, Emission.seq,
      Emission.andThen, Emission.ok]

theorem isEmptyObject_a1 : isEmptyObject (.obj [("a", .num "1")]) = false := by
  simp [isEmptyObject, truthy, jsTypeof, isArray, ownKeys, ownEntries]

theorem docA_facts :
    startsBlock Config.default docA 0 = true ∧
    isStartMarkerVertical Config.default docA 0 = false ∧
    findEndOfBlock Config.default docA 0 4 = some 3 ∧
    parseYamlContent docA 1 2 = "#yaml\na: 1" := by decide

theorem docC_facts :
    startsBlock Config.default docC 0 = true ∧
    findEndOfBlock Config.default docC 0 3 = some 2 ∧
    parseYamlContent docC 1 1 = "#yaml" := by decide

theorem docList_facts :
    startsBlock Config.default docList 0 = true ∧
    isStartMarkerVertical Config.default docList 0 = false ∧
    findEndOfBlock Config.default docList 0 5 = some 4 ∧
    parseYamlContent docList 1 3 = "#yaml\n- 1\n- 2" := by decide

theorem docThrow_facts :
    startsBlock Config.default docThrow 0 = true ∧
    isStartMarkerVertical Config.default docThrow 0 = false ∧
    findEndOfBlock Config.default docThrow 0 4 = some 3 ∧
    parseYamlContent docThrow 1 2 = "#yaml\na: \x7btoString: 1\x7d" := by decide

/-- C8 as stated fails: when the decoder returns the list `[1, 2]` for the block
of `docList`, the rule does not reject it. It returns `true` and pushes a
horizontal table whose keys are the list indices `0` and `1`, and moves the
cursor past the block. -/
theorem C8_top_level_list_counterexample :
    parseFrontmatter Config.default (fun _ => .ok (.arr [.num "1", .num "2"]))
        docList 0 5 false =
      .ok (true, { docList with
        line := 5
        tokens :=
          [{ openTok "yaml-frontmatter_open" "table" 0 (some (0, 4)) with
               markup := "---\n#yaml" },
           openTok "yaml-frontmatter_thead_open" "thead" 1 (some (0, 4)),
           openTok "yaml-frontmatter_tr_open" "tr" 2 (some (0, 4)),
           openTok "yaml-frontmatter_th_open" "th" 3 (some (0, 4)),
           inlineTok (.str "0") 4 (some (0, 4)),
           closeTok "yaml-frontmatter_th_close" "th" 3,
           openTok "yaml-frontmatter_th_open" "th" 3 (some (0, 4)),
           inlineTok (.str "1") 4 (some (0, 4)),
           closeTok "yaml-frontmatter_th_close" "th" 3,
           closeTok "yaml-frontmatter_tr_close" "tr" 2,
           closeTok "yaml-frontmatter_thead_close" "thead" 1,
           openTok "yaml-frontmatter_tbody_open" "tbody" 1 (some (0, 4)),
           openTok "yaml-frontmatter_tr_open" "tr" 2 (some (0, 4)),
           openTok "yaml-frontmatter_td_open" "td" 3 (some (0, 4)),
           inlineTok (.str "1") 4 (some (0, 4)),
           closeTok "yaml-frontmatter_td_close" "td" 3,
           openTok "yaml-frontmatter_td_open" "td" 3 (some (0, 4)),
           inlineTok (.str "2") 4 (some (0, 4)),
           closeTok "yaml-frontmatter_td_close" "td" 3,
           closeTok "yaml-frontmatter_tr_close" "tr" 2,
           closeTok "yaml-frontmatter_tbody_close" "tbody" 1,
           { closeTok "yaml-frontmatter_close" "table" 0 with markup := "---" }] }) := by
  obtain ⟨h1, h2, h3, -⟩ := docList_facts
  rw [parseFrontmatter_accept Config.default _ docList 0 5 4 (.arr [.num "1", .num "2"])
    h1 h3 rfl (by simp [isEmptyObject, truthy, jsTypeof, isArray])]
  have hkeys : ownEntries (.arr [.num "1", .num "2"]) =
      [("0", .num "1"), ("1", .num "2")] := by rfl
  have h0 : toString (0 : Nat) = "0" := rfl
  have h1 : toString (1 : Nat) = "1" := rfl
  simp only [h2]
  simp [h0, h1, layoutOut, horizontalOut, rowOut, rowCellOut, cellOut, ownKeys, getProp,
    hkeys, List.lookup, isArray, jsString, wrapOut, Emission.seq, Emission.andThen,
    Emission.ok, State.outcome, tableOpenTok, tableCloseTok, addTableAttributes,
    optTruthy, Config.default, docList, docState]

/-- C8, amended: once the start and end delimiters are found and the decoder
has returned `v`, the rule rejects the block (returns `false`, state untouched,
no token) exactly for the values its emptiness test names: the falsy values
(`null`, `undefined`, `false`, `0`, `NaN`, the empty string) and the mapping
with zero keys. Every other value, a list (empty or not), a non-empty string, a
non-zero number or `true` included, is never rejected: `Object.keys(v)`
returns, and the value is handed to `pushTokensToState`, which builds the table
of the chosen layout from `Object.keys(v)`, starting with the table-open token.
When that build returns, the rule returns `true` with exactly these tokens
appended and `state.line` after the block; when `String` throws during the
build, that exception leaves the rule. In no case is the result `false`. -/
theorem C8_rejects_only_empty_values (cfg : Config)
    (yamlLoad : String → Except JsError JsVal) (st : State) (s e blockEndLine : Nat)
    (v : JsVal) (hstart : startsBlock cfg st s = true)
    (hend : findEndOfBlock cfg st s e = some blockEndLine)
    (hdec : yamlLoad (parseYamlContent st (s + 1) (blockEndLine - 1)) = .ok v) :
    ((truthy v = false ∨ v = .obj []) →
      parseFrontmatter cfg yamlLoad st s e false = .ok (false, st)) ∧
    (¬ (truthy v = false ∨ v = .obj []) →
      objectKeys v = .ok (ownKeys v) ∧
      parseFrontmatter cfg yamlLoad st s e false =
        pushTokensToState cfg st s blockEndLine v (isStartMarkerVertical cfg st s) ∧
      parseFrontmatter cfg yamlLoad st s e false =
        st.outcome cfg blockEndLine
          (layoutOut cfg st.level v (some (s, blockEndLine))
            (isStartMarkerVertical cfg st s)) ∧
      (∃ rest : List Token,
        (layoutOut cfg st.level v (some (s, blockEndLine))
            (isStartMarkerVertical cfg st s)).tokens =
          tableOpenTok cfg st.level (some (s, blockEndLine))
            (isStartMarkerVertical cfg st s) :: rest) ∧
      ((layoutOut cfg st.level v (some (s, blockEndLine))
          (isStartMarkerVertical cfg st s)).thrown = none →
        parseFrontmatter cfg yamlLoad st s e false =
          .ok (true, { st with
            tokens := st.tokens ++
              (layoutOut cfg st.level v (some (s, blockEndLine))
                (isStartMarkerVertical cfg st s)).tokens
            line := blockEndLine + 1 })) ∧
      ∀ st1 : State, parseFrontmatter cfg yamlLoad st s e false ≠ .ok (false, st1)) := by
  constructor
  · intro h
    rw [parseFrontmatter_started cfg yamlLoad st s e hstart, hend]
    simp only [hdec]
    rw [if_pos ((isEmptyObject_iff v).mpr h)]
  · intro h
    have hne : isEmptyObject v = false := by
      cases hv : isEmptyObject v with
      | false => rfl
      | true => exact absurd ((isEmptyObject_iff v).mp hv) h
    have hkeys := objectKeys_of_truthy v (truthy_of_not_isEmptyObject v hne)
    have hacc := parseFrontmatter_accept cfg yamlLoad st s e blockEndLine v hstart hend hdec hne
    refine ⟨hkeys, ?_, hacc, layoutOut_tokens_cons _ _ _ _ _, ?_, ?_⟩
    · rw [hacc, pushTokensToState_eq cfg st s blockEndLine v _ hkeys]
    · intro hth
      rw [hacc, outcome_of_ok _ _ _ _ hth]
    · intro st1 hfalse
      rw [hacc] at hfalse
      have := (outcome_ok_inv _ _ _ _ _ _ hfalse).2.1
      simp at this

/-- C8 amended, at the block of `docList` with a decoder that returns the list
`[1, 2]`: the value is neither falsy nor the empty mapping, and the rule hands
it to the builder. -/
theorem C8_rejects_only_empty_values_witness :
    (startsBlock Config.default docList 0 = true ∧
     findEndOfBlock Config.default docList 0 5 = some 4 ∧
     (fun _ => Except.ok (JsVal.arr [.num "1", .num "2"]) : String → Except JsError JsVal)
        (parseYamlContent docList (0 + 1) (4 - 1)) = .ok (.arr [.num "1", .num "2"])) ∧
    ¬ (truthy (.arr [.num "1", .num "2"]) = false ∨ JsVal.arr [.num "1", .num "2"] = .obj []) ∧
    parseFrontmatter Config.default (fun _ => .ok (.arr [.num "1", .num "2"]))
        docList 0 5 false =
      pushTokensToState Config.default docList 0 4 (.arr [.num "1", .num "2"])
        (isStartMarkerVertical Config.default docList 0) :=
  ⟨⟨docList_facts.1, docList_facts.2.2.1, rfl⟩, by simp [truthy],
   ((C8_rejects_only_empty_values Config.default (fun _ => .ok (.arr [.num "1", .num "2"]))
      docList 0 5 4 (.arr [.num "1", .num "2"]) docList_facts.1 docList_facts.2.2.1 rfl).2
      (by simp [truthy])).2.1⟩

/-- C9 (decode rejection): whenever the decoder, on the text extracted for the
end line the scan finds, throws, or returns `null`, `undefined` or a mapping
with zero keys, the non-silent rule returns `false` as an ordinary result (no
exception leaves it) and hands back the state it received: no token is pushed
and `line`, `parentType`, `lineMax` and every other field are unchanged. -/
theorem C9_decode_rejection (cfg : Config) (yamlLoad : String → Except JsError JsVal)
    (st : State) (s e : Nat)
    (hdec : ∀ blockEndLine, findEndOfBlock cfg st s e = some blockEndLine →
      (∃ err, yamlLoad (parseYamlContent st (s + 1) (blockEndLine - 1)) = .error err) ∨
      yamlLoad (parseYamlContent st (s + 1) (blockEndLine - 1)) = .ok .null ∨
      yamlLoad (parseYamlContent st (s + 1) (blockEndLine - 1)) = .ok .undefined ∨
      yamlLoad (parseYamlContent st (s + 1) (blockEndLine - 1)) = .ok (.obj [])) :
    parseFrontmatter cfg yamlLoad st s e false = .ok (false, st) := by
  cases hstart : startsBlock cfg st s with
  | false => exact parseFrontmatter_not_startsBlock cfg yamlLoad st s e false hstart
  | true =>
    rw [parseFrontmatter_started cfg yamlLoad st s e hstart]
    cases hend : findEndOfBlock cfg st s e with
    | none => rfl
    | some blockEndLine =>
      simp only
      rcases hdec blockEndLine hend with ⟨err, h⟩ | h | h | h <;> rw [h]
      · simp [isEmptyObject, truthy]
      · simp [isEmptyObject, truthy]
      · simp [isEmptyObject, truthy, jsTypeof, isArray, ownKeys, ownEntries]

/-- C9 on Scenario C: in `docC` the end delimiter follows the start delimiter
directly; the decoder returns `undefined` for the comment line it is handed
(and throws on any other text), and the block is rejected with the state
untouched. -/
theorem C9_decode_rejection_witness :
    (∀ blockEndLine, findEndOfBlock Config.default docC 0 3 = some blockEndLine →
      (∃ err, (fun text => if text = "#yaml" then Except.ok JsVal.undefined
          else Except.error JsError.decodeError)
          (parseYamlContent docC (0 + 1) (blockEndLine - 1)) = .error err) ∨
      (fun text => if text = "#yaml" then Except.ok JsVal.undefined
          else Except.error JsError.decodeError)
          (parseYamlContent docC (0 + 1) (blockEndLine - 1)) = .ok .null ∨
      (fun text => if text = "#yaml" then Except.ok JsVal.undefined
          else Except.error JsError.decodeError)
          (parseYamlContent docC (0 + 1) (blockEndLine - 1)) = .ok .undefined ∨
      (fun text => if text = "#yaml" then Except.ok JsVal.undefined
          else Except.error JsError.decodeError)
          (parseYamlContent docC (0 + 1) (blockEndLine - 1)) = .ok (.obj [])) ∧
    findEndOfBlock Config.default docC 0 3 = some 2 ∧
    parseFrontmatter Config.default
      (fun text => if text = "#yaml" then .ok .undefined else .error .decodeError)
      docC 0 3 false = .ok (false, docC) := by
  have hyp : ∀ blockEndLine, findEndOfBlock Config.default docC 0 3 = some blockEndLine →
      (∃ err, (fun text => if text = "#yaml" then Except.ok JsVal.undefined
          else Except.error JsError.decodeError)
          (parseYamlContent docC (0 + 1) (blockEndLine - 1)) = .error err) ∨
      (fun text => if text = "#yaml" then Except.ok JsVal.undefined
          else Except.error JsError.decodeError)
          (parseYamlContent docC (0 + 1) (blockEndLine - 1)) = .ok .null ∨
      (fun text => if text = "#yaml" then Except.ok JsVal.undefined
          else Except.error JsError.decodeError)
          (parseYamlContent docC (0 + 1) (blockEndLine - 1)) = .ok .undefined ∨
      (fun text => if text = "#yaml" then Except.ok JsVal.undefined
          else Except.error JsError.decodeError)
          (parseYamlContent docC (0 + 1) (blockEndLine - 1)) = .ok (.obj []) := by
    intro blockEndLine h
    rw [docC_facts.2.1] at h
    cases h
    right; right; left
    simp only [docC_facts.2.2]
    rfl
  exact ⟨hyp, docC_facts.2.1, C9_decode_rejection Config.default _ docC 0 3 hyp⟩

/-- The result of the end scan: the first line after `startLine` and before
`endLine` at which the end marker matches. -/
theorem findEndOfBlock_eq_some (cfg : Config) (st : State) (s e blockEndLine : Nat) :
    findEndOfBlock cfg st s e = some blockEndLine ↔
      s < blockEndLine ∧ blockEndLine < e ∧ isEndMarker cfg st blockEndLine = true ∧
      ∀ line, s < line → line < blockEndLine → isEndMarker cfg st line = false := by
  unfold findEndOfBlock
  rw [List.find?_range'_eq_some]
  simp only [List.mem_range'_1, Bool.not_eq_eq_eq_not, Bool.not_true]
  constructor
  · rintro ⟨h1, ⟨h2, h3⟩, h4⟩
    exact ⟨by omega, by omega, h1, fun line hl1 hl2 => h4 line (by omega) hl2⟩
  · rintro ⟨h1, h2, h3, h4⟩
    exact ⟨h3, ⟨by omega, by omega⟩, fun line hl1 hl2 => h4 line (by omega) hl2⟩

theorem findEndOfBlock_eq_none (cfg : Config) (st : State) (s e : Nat) :
    findEndOfBlock cfg st s e = none ↔
      ∀ line, s < line → line < e → isEndMarker cfg st line = false := by
  unfold findEndOfBlock
  rw [List.find?_range'_eq_none]
  simp only [Bool.not_eq_eq_eq_not, Bool.not_true]
  constructor
  · intro h line h1 h2
    exact h line (by omega) (by omega)
  · intro h line h1 h2
    exact h line (by omega) (by omega)

/-- The rule consults the decoder at one text only: two decoders that agree on
the extracted content give the same result. -/
theorem parseFrontmatter_decoder_input (cfg : Config)
    (yamlLoad yamlLoad2 : String → Except JsError JsVal) (st : State)
    (s e blockEndLine : Nat) (hend : findEndOfBlock cfg st s e = some blockEndLine)
    (h : yamlLoad (parseYamlContent st (s + 1) (blockEndLine - 1)) =
      yamlLoad2 (parseYamlContent st (s + 1) (blockEndLine - 1))) :
    parseFrontmatter cfg yamlLoad st s e false = parseFrontmatter cfg yamlLoad2 st s e false := by
  cases hstart : startsBlock cfg st s with
  | false =>
    rw [parseFrontmatter_not_startsBlock cfg yamlLoad st s e false hstart,
      parseFrontmatter_not_startsBlock cfg yamlLoad2 st s e false hstart]
  | true =>
    rw [parseFrontmatter_started cfg yamlLoad st s e hstart,
      parseFrontmatter_started cfg yamlLoad2 st s e hstart, hend]
    simp only [h]

theorem getLinesSkip_zero (src : List Char) (m : LineMarks) (fuel first lineIndent : Nat) :
    getLinesSkip src m 0 fuel first lineIndent = (first, lineIndent) := by
  cases fuel <;> simp [getLinesSkip]

/-- C10 as stated fails: with the default two-line start delimiter the text
handed to the decoder for `docA` is `#yaml` followed by `a: 1`; it starts with
the second line of the start delimiter. A decoder that accepts only that text
is satisfied, and a decoder that accepts only the text strictly between the
delimiters, `a: 1`, is not. -/
theorem C10_start_marker_line_counterexample :
    jsSplitLines Config.default.startMarker = ["---", "#yaml"] ∧
    findEndOfBlock Config.default docA 0 4 = some 3 ∧
    getLine docA 1 = "#yaml" ∧ getLine docA 2 = "a: 1" ∧
    parseYamlContent docA (0 + 1) (3 - 1) = "#yaml\na: 1" ∧
    (∃ st1, parseFrontmatter Config.default
      (fun text => if text = "#yaml\na: 1" then .ok (.obj [("a", .num "1")])
        else .error .decodeError) docA 0 4 false = .ok (true, st1)) ∧
    parseFrontmatter Config.default
      (fun text => if text = "a: 1" then .ok (.obj [("a", .num "1")])
        else .error .decodeError) docA 0 4 false = .ok (false, docA) := by
  refine ⟨by decide, docA_facts.2.2.1, by decide, by decide, docA_facts.2.2.2, ?_, ?_⟩
  · rw [parseFrontmatter_accept Config.default _ docA 0 4 3 (.obj [("a", .num "1")])
      docA_facts.1 docA_facts.2.2.1
      (by simp only [Nat.add_one_sub_one, Nat.zero_add, docA_facts.2.2.2, if_true])
      isEmptyObject_a1,
      outcome_of_ok _ _ _ _ (layoutOut_a1_returns _ _ _ _)]
    exact ⟨_, rfl⟩
  · rw [parseFrontmatter_started _ _ _ _ _ docA_facts.1, docA_facts.2.2.1]
    simp only [Nat.add_one_sub_one, Nat.zero_add, docA_facts.2.2.2]
    rfl

/-- C10, amended: for every block whose end line `blockEndLine` the scan finds,
the only text the rule hands to the decoder is the content of the lines
`startLine + 1, ..., blockEndLine - 1`: every line after the first line of the
start delimiter and before the end-delimiter line, blank lines included, so
the later lines of a multi-line start delimiter are part of it and no line of
the end delimiter is. With `getLines` it is the concatenation of one entry per
line, cut with up to `tShift[startLine + 1]` columns of indentation removed and
the line break kept on every line but the last; for an unindented first
content line an entry is the slice of the text from `bMarks[line]` to
`eMarks[line]` (plus the line break). -/
theorem C10_decoder_input (cfg : Config) (yamlLoad yamlLoad2 : String → Except JsError JsVal)
    (st : State) (s e blockEndLine : Nat)
    (hend : findEndOfBlock cfg st s e = some blockEndLine)
    (hget : st.hasGetLines = true) :
    (yamlLoad (parseYamlContent st (s + 1) (blockEndLine - 1)) =
        yamlLoad2 (parseYamlContent st (s + 1) (blockEndLine - 1)) →
      parseFrontmatter cfg yamlLoad st s e false =
        parseFrontmatter cfg yamlLoad2 st s e false) ∧
    parseYamlContent st (s + 1) (blockEndLine - 1) =
      String.join ((List.range' (s + 1) (blockEndLine - (s + 1))).map (fun line =>
        getLinesEntry st (((st.lines[s + 1]?).map (fun m => m.tShift)).getD 0)
          (decide (line + 1 < blockEndLine)) line)) ∧
    (∀ (line : Nat) (m : LineMarks) (withLF : Bool), st.lines[line]? = some m →
      getLinesEntry st 0 withLF line =
        jsSlice st.src m.bMark (if withLF then m.eMark + 1 else m.eMark)) := by
  have hlt := ((findEndOfBlock_eq_some cfg st s e blockEndLine).mp hend).1
  refine ⟨parseFrontmatter_decoder_input cfg yamlLoad yamlLoad2 st s e blockEndLine hend, ?_, ?_⟩
  · unfold parseYamlContent getLines
    rw [if_pos hget]
    have h1 : blockEndLine - 1 + 1 = blockEndLine := by omega
    rw [h1]
    by_cases hge : s + 1 ≥ blockEndLine
    · rw [if_pos hge]
      have h0 : blockEndLine - (s + 1) = 0 := by omega
      rw [h0]
      rfl
    · rw [if_neg hge]
      simp
  · intro line m withLF hm
    unfold getLinesEntry
    rw [hm]
    simp only [getLinesSkip_zero]
    simp

/-- C10 amended, on `docA`: the decoder input is `#yaml` followed by `a: 1`. -/
theorem C10_decoder_input_witness :
    (findEndOfBlock Config.default docA 0 4 = some 3 ∧ docA.hasGetLines = true) ∧
    parseYamlContent docA (0 + 1) (3 - 1) =
      String.join ((List.range' (0 + 1) (3 - (0 + 1))).map (fun line =>
        getLinesEntry docA (((docA.lines[0 + 1]?).map (fun m => m.tShift)).getD 0)
          (decide (line + 1 < 3)) line)) ∧
    String.join ((List.range' (0 + 1) (3 - (0 + 1))).map (fun line =>
        getLinesEntry docA (((docA.lines[0 + 1]?).map (fun m => m.tShift)).getD 0)
          (decide (line + 1 < 3)) line)) = "#yaml\na: 1" :=
  ⟨⟨docA_facts.2.2.1, rfl⟩,
   (C10_decoder_input Config.default (fun _ => .ok .null) (fun _ => .ok .null) docA 0 4 3
      docA_facts.2.2.1 rfl).2.1, by decide⟩

/-- What `checkLine` tests: every line of the marker, trimmed, equals the
corresponding line of the document, with one trailing carriage return removed
and trimmed. -/
theorem checkLine_iff (st : State) (line : Nat) (marker : String) :
    checkLine st line marker = true ↔
      ∀ (i : Nat) (markerLine : String), (jsSplitLines marker)[i]? = some markerLine →
        jsTrim (dropTrailingCR (getLine st (line + i))) = jsTrim markerLine := by
  unfold checkLine
  simp only [List.all_eq_true, beq_iff_eq]
  constructor
  · intro h i markerLine hi
    exact h (i, markerLine) (List.mk_mem_enum_iff_getElem?.mpr hi)
  · intro h x hx
    exact h x.1 x.2 (List.mem_enum_iff_getElem?.mp hx)

/-- The marker test at `line` reads the document at `line` and after it only. -/
theorem checkLine_congr (st st2 : State) (line : Nat) (marker : String)
    (h : ∀ l, line ≤ l → getLine st2 l = getLine st l) :
    checkLine st2 line marker = checkLine st line marker := by
  unfold checkLine
  simp only
  congr 1
  funext x
  rw [h (line + x.1) (by omega)]

/-- C11: `findEndOfBlock(state, startLine, endLine)` returns `L` exactly when
`L` is the least line with `startLine < L < endLine` at which the end marker
matches (`checkLine`); it returns `false` (here `none`) exactly when no such
line exists. It never inspects a line at or before `startLine`: two states
whose lines after `startLine` read the same give the same result. A returned
line is below `endLine`. -/
theorem C11_findEndOfBlock_least (cfg : Config) (st : State) (s e : Nat) :
    (∀ blockEndLine, findEndOfBlock cfg st s e = some blockEndLine ↔
      s < blockEndLine ∧ blockEndLine < e ∧
      checkLine st blockEndLine cfg.endMarker = true ∧
      ∀ line, s < line → line < blockEndLine → checkLine st line cfg.endMarker = false) ∧
    (findEndOfBlock cfg st s e = none ↔
      ∀ line, s < line → line < e → checkLine st line cfg.endMarker = false) ∧
    (∀ st2 : State, (∀ line, s < line → getLine st2 line = getLine st line) →
      findEndOfBlock cfg st2 s e = findEndOfBlock cfg st s e) := by
  refine ⟨fun blockEndLine => findEndOfBlock_eq_some cfg st s e blockEndLine,
    findEndOfBlock_eq_none cfg st s e, ?_⟩
  intro st2 h
  have hcheck : ∀ line, s < line → isEndMarker cfg st2 line = isEndMarker cfg st line := by
    intro line hl
    exact checkLine_congr st st2 line cfg.endMarker (fun l hl2 => h l (by omega))
  cases hres : findEndOfBlock cfg st s e with
  | none =>
    rw [findEndOfBlock_eq_none] at hres ⊢
    intro line h1 h2
    rw [hcheck line h1]
    exact hres line h1 h2
  | some blockEndLine =>
    rw [findEndOfBlock_eq_some] at hres ⊢
    obtain ⟨h1, h2, h3, h4⟩ := hres
    refine ⟨h1, h2, ?_, ?_⟩
    · rw [hcheck _ h1]; exact h3
    · intro line hl1 hl2
      rw [hcheck line hl1]
      exact h4 line hl1 hl2

/-- C12 (start detection): `checkLine(state, line, marker)` is true exactly
when, for the pieces `m1 .. mk` of the marker split on line breaks, every
document line `line + i - 1`, with a trailing carriage return removed and then
trimmed, equals `trim(mi)`. Once the `allowAnywhere` gate is passed, the rule
gets past the start detection (in silent mode: returns `true`) exactly when the
plain or the vertical start marker matches at `startLine`; and when it builds,
it builds with `vertical` set to the result of the vertical marker test,
whether or not the plain marker matches too. -/
theorem C12_start_detection (cfg : Config) (yamlLoad : String → Except JsError JsVal)
    (st : State) (s e : Nat) :
    (∀ (line : Nat) (marker : String), checkLine st line marker = true ↔
      ∀ (i : Nat) (markerLine : String), (jsSplitLines marker)[i]? = some markerLine →
        jsTrim (dropTrailingCR (getLine st (line + i))) = jsTrim markerLine) ∧
    ((!cfg.allowAnywhere && (s != 0 || decide (st.blkIndent > 0))) = false →
      (parseFrontmatter cfg yamlLoad st s e true = .ok (true, st) ↔
        (checkLine st s cfg.startMarker = true ∨
          checkLine st s cfg.startMarkerVertical = true)) ∧
      (checkLine st s cfg.startMarker = false →
        checkLine st s cfg.startMarkerVertical = false →
        parseFrontmatter cfg yamlLoad st s e false = .ok (false, st))) ∧
    (∀ (blockEndLine : Nat) (v : JsVal), startsBlock cfg st s = true →
      findEndOfBlock cfg st s e = some blockEndLine →
      yamlLoad (parseYamlContent st (s + 1) (blockEndLine - 1)) = .ok v →
      isEmptyObject v = false →
      parseFrontmatter cfg yamlLoad st s e false =
        pushTokensToState cfg st s blockEndLine v (checkLine st s cfg.startMarkerVertical)) := by
  refine ⟨fun line marker => checkLine_iff st line marker, ?_, ?_⟩
  · intro hgate
    constructor
    · rw [parseFrontmatter_silent]
      simp only [startsBlock, hgate, Bool.not_false, Bool.true_and, isStartMarker,
        isStartMarkerVertical]
      constructor
      · intro h
        have h2 := congrArg Prod.fst (Except.ok.inj h)
        simpa using h2
      · intro h
        have : (checkLine st s cfg.startMarker || checkLine st s cfg.startMarkerVertical)
            = true := by simpa using h
        rw [this]
    · intro h1 h2
      exact parseFrontmatter_no_start cfg yamlLoad st s e false h1 h2
  · intro blockEndLine v hstart hend hdec hne
    rw [parseFrontmatter_started cfg yamlLoad st s e hstart, hend]
    simp only [hdec, hne, Bool.false_eq_true, if_false]
    rfl

/-- C13 as stated fails in silent mode: `docNoEnd` starts with the start
delimiter and has no end delimiter before line 3, yet the rule called with
`silent = true` reports a match. -/
theorem C13_silent_counterexample :
    isStartMarker Config.default docNoEnd 0 = true ∧
    (∀ line, 0 < line → line < 3 → isEndMarker Config.default docNoEnd line = false) ∧
    parseFrontmatter Config.default (fun _ => .error .decodeError) docNoEnd 0 3 true =
      .ok (true, docNoEnd) := by
  refine ⟨by decide, ?_, ?_⟩
  · intro line h1 h2
    have h : line = 1 ∨ line = 2 := by omega
    rcases h with h | h <;> subst h <;> decide
  · rw [parseFrontmatter_silent]
    have : startsBlock Config.default docNoEnd 0 = true := by decide
    rw [this]

/-- C13, amended: when a start delimiter matches at `startLine` but no line `L`
with `startLine < L < endLine` matches the end delimiter, the rule called with
`silent = false` reports no match (returns `false`) and leaves `state.line`,
like every other field of the state, unchanged. Called with `silent = true` it
leaves the state unchanged as well, but it does not look for the end delimiter:
it returns `true` whenever the `allowAnywhere` gate is passed. -/
theorem C13_missing_end_delimiter (cfg : Config) (yamlLoad : String → Except JsError JsVal)
    (st : State) (s e : Nat)
    (hstart : isStartMarker cfg st s = true ∨ isStartMarkerVertical cfg st s = true)
    (hnone : ∀ line, s < line → line < e → isEndMarker cfg st line = false) :
    parseFrontmatter cfg yamlLoad st s e false = .ok (false, st) ∧
    parseFrontmatter cfg yamlLoad st s e true =
      .ok (!(!cfg.allowAnywhere && (s != 0 || decide (st.blkIndent > 0))), st) := by
  constructor
  · cases hsb : startsBlock cfg st s with
    | false => exact parseFrontmatter_not_startsBlock cfg yamlLoad st s e false hsb
    | true =>
      rw [parseFrontmatter_started cfg yamlLoad st s e hsb,
        (findEndOfBlock_eq_none cfg st s e).mpr hnone]
  · rw [parseFrontmatter_silent]
    have : (isStartMarker cfg st s || isStartMarkerVertical cfg st s) = true := by
      simpa using hstart
    simp [startsBlock, this]

/-- C13 amended, on `docNoEnd`. -/
theorem C13_missing_end_delimiter_witness :
    ((isStartMarker Config.default docNoEnd 0 = true ∨
        isStartMarkerVertical Config.default docNoEnd 0 = true) ∧
      ∀ line, 0 < line → line < 3 → isEndMarker Config.default docNoEnd line = false) ∧
    parseFrontmatter Config.default (fun _ => .error .decodeError) docNoEnd 0 3 false =
      .ok (false, docNoEnd) := by
  have h1 : isStartMarker Config.default docNoEnd 0 = true ∨
      isStartMarkerVertical Config.default docNoEnd 0 = true := Or.inl (by decide)
  have h2 : ∀ line, 0 < line → line < 3 →
      isEndMarker Config.default docNoEnd line = false := by
    intro line h1 h2
    have h : line = 1 ∨ line = 2 := by omega
    rcases h with h | h <;> subst h <;> decide
  exact ⟨⟨h1, h2⟩,
    (C13_missing_end_delimiter Config.default (fun _ => .error .decodeError) docNoEnd 0 3
      h1 h2).1⟩

/-- C14 (`allowAnywhere = false`): with `allowAnywhere` off, a call at a start
line other than 0, or in a state with positive block indent, returns `false` in
silent and in non-silent mode alike and hands back the state it received: no
token is pushed and no field changes, whatever the text and the decoder. -/
theorem C14_allowAnywhere_gate (cfg : Config) (yamlLoad : String → Except JsError JsVal)
    (st : State) (s e : Nat) (silent : Bool) (hcfg : cfg.allowAnywhere = false)
    (hpos : s ≠ 0 ∨ st.blkIndent > 0) :
    parseFrontmatter cfg yamlLoad st s e silent = .ok (false, st) := by
  apply parseFrontmatter_gate
  rcases hpos with h | h <;> simp [hcfg, h]

/-- C14 on Scenario D: `allowAnywhere = false` and a call at line 5. -/
theorem C14_allowAnywhere_gate_witness :
    (Config.topOnly.allowAnywhere = false ∧ ((5 : Nat) ≠ 0 ∨ docA.blkIndent > 0)) ∧
    parseFrontmatter Config.topOnly (fun _ => .ok (.obj [("a", .num "1")])) docA 5 9 false =
      .ok (false, docA) :=
  ⟨⟨rfl, Or.inl (by decide)⟩,
   C14_allowAnywhere_gate Config.topOnly (fun _ => .ok (.obj [("a", .num "1")])) docA 5 9
     false rfl (Or.inl (by decide))⟩

/-- C15, the failing input: on `docThrow`, whose block decodes to
`{a: {toString: 1}}`, the non-silent call does not return. `String` throws a
`TypeError` in `createRow`, after `pushTokensToState` has overwritten
`state.parentType` and `state.lineMax` and before the lines that restore them;
nothing catches the exception. The state it leaves behind has
`parentType = "yaml-frontmatter"` instead of `"root"`, `lineMax = 3` instead
of 4, the nesting level 3 instead of 0, and ten tokens of an unfinished
table. -/
theorem C15_state_not_restored_on_throw :
    docThrow.parentType = "root" ∧ docThrow.lineMax = 4 ∧ docThrow.level = 0 ∧
    docThrow.tokens = [] ∧
    parseYamlContent docThrow (0 + 1) (3 - 1) = "#yaml\na: \x7btoString: 1\x7d" ∧
    parseFrontmatter Config.default
        (fun text => if text = "#yaml\na: \x7btoString: 1\x7d" then
            .ok (.obj [("a", .obj [("toString", .num "1")])])
          else .error .decodeError) docThrow 0 4 false =
      .error (.typeError, { docThrow with
        parentType := "yaml-frontmatter"
        lineMax := 3
        level := 3
        tokens :=
          [{ openTok "yaml-frontmatter_open" "table" 0 (some (0, 3)) with
               markup := "---\n#yaml" },
           openTok "yaml-frontmatter_thead_open" "thead" 1 (some (0, 3)),
           openTok "yaml-frontmatter_tr_open" "tr" 2 (some (0, 3)),
           openTok "yaml-frontmatter_th_open" "th" 3 (some (0, 3)),
           inlineTok (.str "a") 4 (some (0, 3)),
           closeTok "yaml-frontmatter_th_close" "th" 3,
           closeTok "yaml-frontmatter_tr_close" "tr" 2,
           closeTok "yaml-frontmatter_thead_close" "thead" 1,
           openTok "yaml-frontmatter_tbody_open" "tbody" 1 (some (0, 3)),
           openTok "yaml-frontmatter_tr_open" "tr" 2 (some (0, 3))] }) := by
  refine ⟨rfl, rfl, rfl, rfl, docThrow_facts.2.2.2, ?_⟩
  rw [parseFrontmatter_started _ _ _ _ _ docThrow_facts.1, docThrow_facts.2.2.1]
  simp only [Nat.add_one_sub_one, Nat.zero_add, docThrow_facts.2.2.2, if_true]
  have hne : isEmptyObject (.obj [("a", .obj [("toString", .num "1")])]) = false := by
    simp [isEmptyObject, truthy, jsTypeof, isArray, ownKeys, ownEntries]
  simp only [hne, Bool.false_eq_true, if_false, docThrow_facts.2.1]
  rw [horizontal_toString_throws]
  simp [docThrow, docState]

theorem addTableAttributes_fields (cfg : Config) (t : Token) :
    (addTableAttributes cfg t).type = t.type ∧ (addTableAttributes cfg t).tag = t.tag ∧
    (addTableAttributes cfg t).nesting = t.nesting ∧
    (addTableAttributes cfg t).level = t.level ∧
    (addTableAttributes cfg t).map = t.map ∧
    (addTableAttributes cfg t).content = t.content ∧
    (addTableAttributes cfg t).markup = t.markup := by
  unfold addTableAttributes
  simp only
  split <;> split <;> simp [Token.attrPush]

theorem tableOpenTok_fields (cfg : Config) (level : Int) (map : Option (Nat × Nat))
    (vertical : Bool) :
    (tableOpenTok cfg level map vertical).type = cfg.name ++ "_open" ∧
    (tableOpenTok cfg level map vertical).tag = "table" ∧
    (tableOpenTok cfg level map vertical).nesting = 1 ∧
    (tableOpenTok cfg level map vertical).level = level := by
  obtain ⟨h1, h2, h3, h4, -⟩ := addTableAttributes_fields cfg
    { openTok (cfg.name ++ "_open") "table" level map with
      markup := if vertical then cfg.startMarkerVertical else cfg.startMarker }
  exact ⟨h1, h2, h3, h4⟩

/-- C16 as stated fails for an end marker of more than one line: with the
two-line end marker `...`, `---` found at line 3 of `docTwoEnd`, the successful
non-silent call leaves `state.line = 4`, and line 4 is the line the second
line of the end marker matched, so the cursor is not past the end delimiter. -/
theorem C16_two_line_end_marker_counterexample :
    jsSplitLines Config.twoLineEnd.endMarker = ["...", "---"] ∧
    findEndOfBlock Config.twoLineEnd docTwoEnd 0 5 = some 3 ∧
    getLine docTwoEnd 3 = "..." ∧ getLine docTwoEnd 4 = "---" ∧
    ∃ st1, parseFrontmatter Config.twoLineEnd (fun _ => .ok (.obj [("a", .num "1")]))
        docTwoEnd 0 5 false = .ok (true, st1) ∧ st1.line = 4 := by
  have hend : findEndOfBlock Config.twoLineEnd docTwoEnd 0 5 = some 3 := by decide
  have hstart : startsBlock Config.twoLineEnd docTwoEnd 0 = true := by decide
  refine ⟨by decide, hend, by decide, by decide, ?_⟩
  rw [parseFrontmatter_accept Config.twoLineEnd _ docTwoEnd 0 5 3 (.obj [("a", .num "1")])
    hstart hend rfl isEmptyObject_a1,
    outcome_of_ok _ _ _ _ (layoutOut_a1_returns _ _ _ _)]
  exact ⟨_, rfl, rfl⟩

/-- C16, amended: on every successful non-silent match the scan has found an
end line `L` with `startLine < L < endLine`, the first line at which the end
marker matches, and `state.line` after the call is `L + 1`: past the end
delimiter when the end marker is a single line. The tokens appended start with
the table-open token, whose source span is `[startLine, L]`. -/
theorem C16_cursor_advance (cfg : Config) (yamlLoad : String → Except JsError JsVal)
    (st st1 : State) (s e : Nat)
    (h : parseFrontmatter cfg yamlLoad st s e false = .ok (true, st1)) :
    ∃ blockEndLine : Nat,
      findEndOfBlock cfg st s e = some blockEndLine ∧
      s < blockEndLine ∧ blockEndLine < e ∧
      st1.line = blockEndLine + 1 ∧
      ∃ (first : Token) (rest : List Token),
        st1.tokens = st.tokens ++ first :: rest ∧
        first.type = cfg.name ++ "_open" ∧ first.nesting = 1 ∧
        first.map = some (s, blockEndLine) := by
  have h0 := h
  cases hsb : startsBlock cfg st s with
  | false =>
    rw [parseFrontmatter_not_startsBlock cfg yamlLoad st s e false hsb] at h
    simp at h
  | true =>
    rw [parseFrontmatter_started cfg yamlLoad st s e hsb] at h
    cases hend : findEndOfBlock cfg st s e with
    | none => rw [hend] at h; simp at h
    | some blockEndLine =>
      rw [hend] at h
      simp only at h
      cases hdec : yamlLoad (parseYamlContent st (s + 1) (blockEndLine - 1)) with
      | error err => rw [hdec] at h; simp at h
      | ok v =>
        rw [hdec] at h
        simp only at h
        cases hempty : isEmptyObject v with
        | true => rw [hempty] at h; simp at h
        | false =>
          rw [parseFrontmatter_accept cfg yamlLoad st s e blockEndLine v hsb hend hdec
            hempty] at h0
          obtain ⟨-, -, hst⟩ := outcome_ok_inv _ _ _ _ _ _ h0
          obtain ⟨h1, h2, -⟩ := (findEndOfBlock_eq_some cfg st s e blockEndLine).mp hend
          obtain ⟨rest, hrest⟩ := layoutOut_tokens_cons cfg st.level v (some (s, blockEndLine))
            (isStartMarkerVertical cfg st s)
          have hfields := tableOpenTok_fields cfg st.level (some (s, blockEndLine))
            (isStartMarkerVertical cfg st s)
          have hmap : (tableOpenTok cfg st.level (some (s, blockEndLine))
              (isStartMarkerVertical cfg st s)).map = some (s, blockEndLine) := by
            unfold tableOpenTok
            rw [(addTableAttributes_fields cfg _).2.2.2.2.1]
            rfl
          subst hst
          refine ⟨blockEndLine, rfl, h1, h2, rfl, _, rest, ?_, hfields.1, hfields.2.2.1, hmap⟩
          simp only [hrest]

/-- C16 amended, on `docA` with a decoder that returns `{a: 1}`: the end line
is 3 and the cursor ends on line 4. -/
theorem C16_cursor_advance_witness :
    ∃ st1 : State,
      parseFrontmatter Config.default (fun _ => .ok (.obj [("a", .num "1")])) docA 0 4 false =
        .ok (true, st1) ∧
      ∃ blockEndLine : Nat,
        findEndOfBlock Config.default docA 0 4 = some blockEndLine ∧
        0 < blockEndLine ∧ blockEndLine < 4 ∧
        st1.line = blockEndLine + 1 ∧
        ∃ (first : Token) (rest : List Token),
          st1.tokens = docA.tokens ++ first :: rest ∧
          first.type = Config.default.name ++ "_open" ∧ first.nesting = 1 ∧
          first.map = some (0, blockEndLine) := by
  have hrun : ∃ st1 : State,
      parseFrontmatter Config.default (fun _ => .ok (.obj [("a", .num "1")])) docA 0 4 false =
        .ok (true, st1) := by
    rw [parseFrontmatter_accept Config.default _ docA 0 4 3 (.obj [("a", .num "1")])
      docA_facts.1 docA_facts.2.2.1 rfl isEmptyObject_a1,
      outcome_of_ok _ _ _ _ (layoutOut_a1_returns _ _ _ _)]
    exact ⟨_, rfl⟩
  obtain ⟨st1, h⟩ := hrun
  exact ⟨st1, h, C16_cursor_advance Config.default _ docA st1 0 4 h⟩

/-- C18 as stated fails: on `docC` (start delimiter directly followed by the end
delimiter) with a decoder that returns `undefined`, the silent call reports a
match although the same call with `silent = false` reports none. -/
theorem C18_silent_disagrees_counterexample :
    parseFrontmatter Config.default (fun _ => .ok .undefined) docC 0 3 true =
      .ok (true, docC) ∧
    parseFrontmatter Config.default (fun _ => .ok .undefined) docC 0 3 false =
      .ok (false, docC) := by
  constructor
  · rw [parseFrontmatter_silent, docC_facts.1]
  · rw [parseFrontmatter_started _ _ _ _ _ docC_facts.1, docC_facts.2.1]
    rfl

/-- C18, amended: `parseFrontmatter` called with `silent = true` pushes no token
and changes no field of the state, and it returns `true` exactly when the
`allowAnywhere` gate is passed and the plain or the vertical start marker
matches at `startLine`: it neither looks for the end delimiter nor decodes.
Hence it returns `true` whenever the same call with `silent = false` returns
`true`; the converse does not hold. -/
theorem C18_silent_mode (cfg : Config) (yamlLoad : String → Except JsError JsVal)
    (st : State) (s e : Nat) :
    parseFrontmatter cfg yamlLoad st s e true =
      .ok (!(!cfg.allowAnywhere && (s != 0 || decide (st.blkIndent > 0))) &&
        (checkLine st s cfg.startMarker || checkLine st s cfg.startMarkerVertical), st) ∧
    (∀ st1, parseFrontmatter cfg yamlLoad st s e false = .ok (true, st1) →
      parseFrontmatter cfg yamlLoad st s e true = .ok (true, st)) := by
  constructor
  · rw [parseFrontmatter_silent]
    rfl
  · intro st1 h
    cases hsb : startsBlock cfg st s with
    | false =>
      rw [parseFrontmatter_not_startsBlock cfg yamlLoad st s e false hsb] at h
      simp at h
    | true => rw [parseFrontmatter_silent, hsb]

/-- C19, the failing input: with `className = "fm"`, the table-open token of
the block `{a: 1}` leaves `pushTokensToState` with the attribute list
`[["class", "fm"]]`, because the builder already calls `addTableAttributes`.
Rendering that token with `renderDefault` calls `addTableAttributes` on it
again: after one render its attribute list is
`[["class", "fm"], ["class", "fm"]]`, and after a second render it holds the
class three times. -/
theorem C19_render_duplicates_attributes (renderToken : List Token → Nat → String) :
    ∃ (st1 : State) (first : Token) (rest : List Token),
      pushTokensToState Config.withClass (State.blank 0) 0 3
        (.obj [("a", .num "1")]) false = .ok (true, st1) ∧
      st1.tokens = first :: rest ∧
      first.type = "yaml-frontmatter_open" ∧
      first.attrs = some [("class", some "fm")] ∧
      ∃ (tokens1 : List Token) (markup1 : String),
        renderDefault Config.withClass renderToken st1.tokens 0 = .ok (tokens1, markup1) ∧
        (tokens1.head?).map (fun t => t.attrs) =
          some (some [("class", some "fm"), ("class", some "fm")]) ∧
        tokens1.tail = rest ∧
        ∃ (tokens2 : List Token) (markup2 : String),
          renderDefault Config.withClass renderToken tokens1 0 = .ok (tokens2, markup2) ∧
          (tokens2.head?).map (fun t => t.attrs) =
            some (some [("class", some "fm"), ("class", some "fm"), ("class", some "fm")]) := by
  have hpush := pushTokensToState_eq Config.withClass (State.blank 0) 0 3
    (.obj [("a", .num "1")]) false rfl
  rw [outcome_of_ok _ _ _ _ (layoutOut_a1_returns _ _ _ _)] at hpush
  obtain ⟨rest, hrest⟩ := layoutOut_tokens_cons Config.withClass (State.blank 0).level
    (.obj [("a", .num "1")]) (some (0, 3)) false
  rw [hrest] at hpush
  refine ⟨_, tableOpenTok Config.withClass 0 (some (0, 3)) false, rest, hpush, ?_, rfl, rfl, ?_⟩
  · simp [State.blank]
  · have htok : ({ State.blank 0 with
          tokens := (State.blank 0).tokens ++
            tableOpenTok Config.withClass (State.blank 0).level (some (0, 3)) false :: rest
          line := 3 + 1 } : State).tokens =
        tableOpenTok Config.withClass 0 (some (0, 3)) false :: rest := by
      simp [State.blank]
    rw [htok]
    refine ⟨addTableAttributes Config.withClass
        (tableOpenTok Config.withClass 0 (some (0, 3)) false) :: rest,
      renderToken (addTableAttributes Config.withClass
        (tableOpenTok Config.withClass 0 (some (0, 3)) false) :: rest) 0, ?_, rfl, rfl,
      addTableAttributes Config.withClass (addTableAttributes Config.withClass
        (tableOpenTok Config.withClass 0 (some (0, 3)) false)) :: rest,
      renderToken (addTableAttributes Config.withClass (addTableAttributes Config.withClass
        (tableOpenTok Config.withClass 0 (some (0, 3)) false)) :: rest) 0, ?_, rfl⟩
    · simp [renderDefault, addTableAttributes_fields, tableOpenTok, openTok, Config.withClass,
        Config.default]
    · simp [renderDefault, addTableAttributes_fields, tableOpenTok, openTok, Config.withClass,
        Config.default]

end YamlFrontmatter
